import Mathlib

set_option linter.dupNamespace false

/-!
# newsapi-go: request building and response decoding

A shallow embedding of `src/client.go` (package `newsapi`): the query builder
`buildURL`, the three operations `GetTopHeadlines`, `GetEverything` and
`GetSources`, and the parts of the Go standard library they call
(`url.PathEscape`, `url.Parse` as used by `http.NewRequest`, and
`json.Unmarshal` into the response structs).

Go strings are byte sequences, so a Go `string` is a list of bytes here.
-/

namespace NewsAPI

/-! ## Go strings -/

/-- A byte. -/
abbrev Byte := Fin 256

/-- A Go `string`: an immutable sequence of bytes. -/
abbrev GoString := List Byte

/-- The UTF-8 encoding of one character. -/
def utf8 (c : Char) : List Byte := (String.utf8EncodeChar c).map (fun b => b.val)

/-- The Go string written by a source literal. -/
def str (s : String) : GoString := s.toList.flatMap utf8

/-- The byte of an ASCII character literal. -/
def ch (c : Char) : Byte := Fin.ofNat c.toNat

/-! ## net/url escaping (`url.PathEscape`) -/

/-- The escaping modes of `net/url`. -/
inductive Encoding
  | encodePath
  | encodePathSegment
  | encodeHost
  | encodeZone
  | encodeUserPassword
  | encodeQueryComponent
  | encodeFragment
  deriving DecidableEq, Repr

open Encoding

/-- Alphanumeric bytes: `a-z`, `A-Z`, `0-9`. -/
def isAlnum (c : Byte) : Bool :=
  (ch 'a' ≤ c && c ≤ ch 'z') || (ch 'A' ≤ c && c ≤ ch 'Z') || (ch '0' ≤ c && c ≤ ch '9')

/-- Go `shouldEscape(c, mode)`: whether byte `c` must be written as `%XX` in a
URL component of kind `mode`. -/
def shouldEscape (c : Byte) (mode : Encoding) : Bool :=
  if isAlnum c then false
  else if (mode = encodeHost ∨ mode = encodeZone) ∧ c ∈ str "!$&\x27()*+,;=:[]<>\"" then false
  else if c ∈ str "-_.~" then false
  else if c ∈ str "$&+,/:;=?@" then
    match mode with
    | encodePath => c = ch '?'
    | encodePathSegment => c = ch '/' || c = ch ';' || c = ch ',' || c = ch '?'
    | encodeUserPassword => c = ch '@' || c = ch '/' || c = ch '?' || c = ch ':'
    | encodeQueryComponent => true
    | encodeFragment => false
    | _ => true
  else if mode = encodeFragment ∧ c ∈ str "!()*" then false
  else true

/-- The table `upperhex = "0123456789ABCDEF"` indexed by a nibble. -/
def upperhex (n : Nat) : Byte := (str "0123456789ABCDEF").getD n 0

/-- The three bytes `%XX` written for an escaped byte. -/
def pct (c : Byte) : GoString := [ch '%', upperhex (c.val / 16), upperhex (c.val % 16)]

/-- Go `escape(s, mode)`. -/
def escape (s : GoString) (mode : Encoding) : GoString :=
  s.flatMap fun c =>
    if c = ch ' ' ∧ mode = encodeQueryComponent then [ch '+']
    else if shouldEscape c mode then pct c
    else [c]

/-- Go `url.PathEscape`. -/
def PathEscape (s : GoString) : GoString := escape s encodePathSegment

/-! ## The query builder (`buildURL`, client.go:203-215) -/

/-- The `for i, param := range args` loop of `buildURL`: `n` is `len(args)`,
`i` the index of the next fragment, `params` the accumulator. -/
def joinLoop (n : Nat) : Nat → List GoString → GoString → GoString
  | _, [], params => params
  | i, param :: rest, params =>
    let params := params ++ param
    let params := if (i : Int) < (n : Int) - 1 then params ++ str "&" else params
    joinLoop n (i + 1) rest params

/-- The value of `params` when the loop of `buildURL` ends. -/
def joinParams (args : List GoString) : GoString := joinLoop args.length 0 args []

/-- Go `buildURL(base, args...)`; newsapi/newsapi_client.go:161-173 has the same
text. -/
def buildURL (base : GoString) (args : List GoString) : GoString :=
  let p := PathEscape (joinParams args)
  let u := base ++ p
  u

/-- Specification side: the fragments in order with a single `&` between
consecutive fragments, no leading and no trailing separator. -/
def ampJoined : List GoString → GoString
  | [] => []
  | [a] => a
  | a :: b :: rest => a ++ str "&" ++ ampJoined (b :: rest)

/-- Specification side: the bytes a path segment keeps unescaped, as the
specification lists them: ASCII letters, digits and `- _ . ~ $ & + = : @`. -/
def segmentSafe (c : Byte) : Bool :=
  isAlnum c || c ∈ str "-_.~$&+=:@"

/-! ## net/url parsing (`url.Parse`, called by `http.NewRequest`)

The parts of a parsed URL are kept as written (raw): `url.Parse` also stores
unescaped copies, which no code of this package reads. Only the checks that
can make `Parse` fail are modelled, each in the order the library runs them. -/

/-- Go `strings.Cut(s, sep)` for a one-byte separator: the text before the
first `sep`, and the text after it when there is one. -/
def cut (sep : Byte) : GoString → GoString × Option GoString
  | [] => ([], none)
  | c :: rest =>
    if c = sep then ([], some rest)
    else ((cut sep rest).1.cons c, (cut sep rest).2)

/-- Go `strings.LastIndex(s, sep) >= 0` split: the text before and after the
last `sep`, or `none` when `sep` does not occur. -/
def cutLast (sep : Byte) (s : GoString) : Option (GoString × GoString) :=
  match cut sep s.reverse with
  | (_, none) => none
  | (after, some before) => some (before.reverse, after.reverse)

/-- Go `stringContainsCTLByte`. -/
def stringContainsCTLByte (s : GoString) : Bool :=
  s.any fun c => c.val < 0x20 || c.val = 0x7f

/-- ASCII letters. -/
def isLetter (c : Byte) : Bool :=
  (ch 'a' ≤ c && c ≤ ch 'z') || (ch 'A' ≤ c && c ≤ ch 'Z')

/-- ASCII digits. -/
def isDigit (c : Byte) : Bool := ch '0' ≤ c && c ≤ ch '9'

/-- The scan of Go `getScheme`: `acc` holds the bytes read so far, reversed.
`none` is the error "missing protocol scheme"; otherwise scheme and rest. -/
def getSchemeLoop (rawURL : GoString) : GoString → GoString → Option (GoString × GoString)
  | _, [] => some ([], rawURL)
  | acc, c :: rest =>
    if isLetter c then getSchemeLoop rawURL (c :: acc) rest
    else if isDigit c ∨ c = ch '+' ∨ c = ch '-' ∨ c = ch '.' then
      if acc = [] then some ([], rawURL) else getSchemeLoop rawURL (c :: acc) rest
    else if c = ch ':' then
      if acc = [] then none else some (acc.reverse, rest)
    else some ([], rawURL)

/-- Go `getScheme`. -/
def getScheme (rawURL : GoString) : Option (GoString × GoString) :=
  getSchemeLoop rawURL [] rawURL

/-- Go `strings.ToLower` on ASCII. -/
def toLower (s : GoString) : GoString :=
  s.map fun c => if ch 'A' ≤ c ∧ c ≤ ch 'Z' then c + 32 else c

/-- Go `ishex`. -/
def ishex (c : Byte) : Bool :=
  isDigit c || (ch 'a' ≤ c && c ≤ ch 'f') || (ch 'A' ≤ c && c ≤ ch 'F')

/-- Go `unhex`. -/
def unhex (c : Byte) : Nat :=
  if isDigit c then c.val - 48
  else if ch 'a' ≤ c ∧ c ≤ ch 'f' then c.val - 97 + 10
  else if ch 'A' ≤ c ∧ c ≤ ch 'F' then c.val - 65 + 10
  else 0

/-- The validation pass of Go `unescape(s, mode)`: `true` when `unescape`
returns no error. -/
def unescapeOK (mode : Encoding) : GoString → Bool
  | [] => true
  | c :: rest =>
    if c = ch '%' then
      match rest with
      | h1 :: h2 :: rest2 =>
        if !(ishex h1 && ishex h2) then false
        else if mode = encodeHost ∧ unhex h1 < 8 ∧ [c, h1, h2] ≠ str "%25" then false
        else if mode = encodeZone ∧ [c, h1, h2] ≠ str "%25"
            ∧ unhex h1 * 16 + unhex h2 ≠ 32
            ∧ shouldEscape (Fin.ofNat (unhex h1 * 16 + unhex h2)) encodeHost then false
        else unescapeOK mode rest2
      | _ => false
    else if (mode = encodeHost ∨ mode = encodeZone) ∧ c.val < 0x80
        ∧ shouldEscape c encodeHost then false
    else unescapeOK mode rest

/-- Go `validOptionalPort`. -/
def validOptionalPort : GoString → Bool
  | [] => true
  | c :: rest => c = ch ':' && rest.all isDigit

/-- Go `validUserinfo`. -/
def validUserinfo (s : GoString) : Bool :=
  s.all fun c => isAlnum c || c ∈ str "-._:~!$&\x27()*+,;=%@"

/-- The position of the first `%25` in `s`, as Go `strings.Index(s, "%25")`. -/
def indexPct25 : GoString → Option Nat
  | [] => none
  | c :: rest =>
    if (str "%25").isPrefixOf (c :: rest) then some 0
    else (indexPct25 rest).map (· + 1)

/-- Go `parseHost`: `true` when it returns no error. -/
def parseHostOK (host : GoString) : Bool :=
  if host.head? = some (ch '[') then
    match cutLast (ch ']') host with
    | none => false
    | some (before, after) =>
      if !validOptionalPort after then false
      else
        match indexPct25 before with
        | some zone =>
          unescapeOK encodeHost (before.take zone)
            && unescapeOK encodeZone (before.drop zone)
            && unescapeOK encodeHost (ch ']' :: after)
        | none => unescapeOK encodeHost host
  else
    match cutLast (ch ':') host with
    | some (_, port) =>
      if !validOptionalPort (ch ':' :: port) then false else unescapeOK encodeHost host
    | none => unescapeOK encodeHost host

/-- Go `parseAuthority`: the raw userinfo and host, or `none` on error. -/
def parseAuthority (authority : GoString) : Option (Option GoString × GoString) :=
  match cutLast (ch '@') authority with
  | none => if parseHostOK authority then some (none, authority) else none
  | some (userinfo, host) =>
    if !parseHostOK host then none
    else if !validUserinfo userinfo then none
    else
      match cut (ch ':') userinfo with
      | (_, none) =>
        if unescapeOK encodeUserPassword userinfo then some (some userinfo, host) else none
      | (username, some password) =>
        if unescapeOK encodeUserPassword username && unescapeOK encodeUserPassword password
        then some (some userinfo, host) else none

/-- Go `url.URL`, its parts as written in the parsed text. -/
structure URL where
  Scheme : GoString := []
  /-- The field `Opaque` of `url.URL`: the rest of a rootless URL. -/
  Rootless : GoString := []
  User : Option GoString := none
  Host : GoString := []
  Path : GoString := []
  ForceQuery : Bool := false
  RawQuery : GoString := []
  Fragment : GoString := []
  deriving DecidableEq, Repr

/-- The second half of Go `parse(rawURL, viaRequest = false)`: what follows
the split of scheme and query, on the rest `rest` of the text. -/
def parseAfterQuery (scheme rest : GoString) (forceQuery : Bool) (rawQuery : GoString) :
    Option URL :=
  if rest.head? ≠ some (ch '/') ∧ scheme ≠ [] then
    some { Scheme := scheme, Rootless := rest, ForceQuery := forceQuery, RawQuery := rawQuery }
  else if rest.head? ≠ some (ch '/') ∧ ch ':' ∈ (cut (ch '/') rest).1 then none
  else if (scheme ≠ [] ∨ ¬ (str "///").isPrefixOf rest) ∧ (str "//").isPrefixOf rest then
    let authority := (cut (ch '/') (rest.drop 2)).1
    let path := (rest.drop 2).drop authority.length
    match parseAuthority authority with
    | none => none
    | some (user, host) =>
      if unescapeOK encodePath path then
        some { Scheme := scheme, User := user, Host := host, Path := path,
               ForceQuery := forceQuery, RawQuery := rawQuery }
      else none
  else if unescapeOK encodePath rest then
    some { Scheme := scheme, Path := rest, ForceQuery := forceQuery, RawQuery := rawQuery }
  else none

/-- Go `parse(rawURL, viaRequest = false)`: the text before `#`. -/
def parseNoFragment (rawURL : GoString) : Option URL :=
  if stringContainsCTLByte rawURL then none
  else if rawURL = str "*" then some { Path := str "*" }
  else
    match getScheme rawURL with
    | none => none
    | some (scheme, rest0) =>
      if rest0.getLast? = some (ch '?') ∧ rest0.count (ch '?') = 1
      then parseAfterQuery (toLower scheme) rest0.dropLast true []
      else parseAfterQuery (toLower scheme) (cut (ch '?') rest0).1 false
             (((cut (ch '?') rest0).2).getD [])

/-- Go `url.Parse`. -/
def urlParse (rawURL : GoString) : Option URL :=
  match cut (ch '#') rawURL with
  | (u, frag) =>
    match parseNoFragment u with
    | none => none
    | some url =>
      match frag with
      | none => some url
      | some [] => some url
      | some f => if unescapeOK encodeFragment f then some { url with Fragment := f } else none

/-! ## net/http requests -/

/-- Go `http.Request`, the parts this package sets. -/
structure Request where
  Method : GoString
  URL : URL
  Header : List (GoString × GoString)
  deriving DecidableEq, Repr

/-- Go `validMethod`: a non-empty HTTP token. -/
def validMethod (method : GoString) : Bool :=
  method ≠ [] && method.all fun c => isAlnum c || c ∈ str "!#$%&\x27*+-.^_\x60|~"

/-- Go `removeEmptyPort`: a host that ends in `:` loses that `:`. -/
def removeEmptyPort (host : GoString) : GoString :=
  if host.getLast? = some (ch ':') then host.dropLast else host

/-- Go `http.NewRequest(method, url, nil)`; `none` is a non-nil error. -/
def NewRequest (method : GoString) (url : GoString) : Option Request :=
  let method := if method = [] then str "GET" else method
  if !validMethod method then none
  else
    match urlParse url with
    | none => none
    | some u => some { Method := method, URL := { u with Host := removeEmptyPort u.Host }, Header := [] }

/-- Go `Header.Set(key, value)` for a key already in canonical form. -/
def Request.setHeader (req : Request) (key value : GoString) : Request :=
  { req with Header := (req.Header.filter fun kv => kv.1 ≠ key) ++ [(key, value)] }

/-! ## The data model (client.go:20-79) -/

/-- Go `Error`: the error shape of the envelope. -/
structure Error where
  Status : GoString := []
  Code : GoString := []
  Message : GoString := []
  deriving DecidableEq, Repr

/-- Go `Error.Error()` (client.go:28-30):
`fmt.Sprintf("code: %s message: %s", err.Code, err.Nessage)`.
The struct declares `Status`, `Code` and `Message`; the selector `Nessage`
names none of them and has no declaration, so what it denotes is a parameter. -/
def Error.Error (Nessage : NewsAPI.Error → GoString) (err : NewsAPI.Error) : GoString :=
  str "code: " ++ err.Code ++ str " message: " ++ Nessage err

/-- The `time` package as the decoder uses it: the type `time.Time`, its zero
value, and `Time.UnmarshalJSON` on the content of a JSON string (`none` is a
non-nil error); the string is one written without escape sequences, so that
its content is the text the library is given. Which strings the library
accepts differs between Go releases, so it is a parameter of the embedding. -/
structure TimeLib where
  Time : Type
  zero : Time
  parse : GoString → Option Time

/-- Go `ArticleSource`. -/
structure ArticleSource where
  ID : GoString := []
  Name : GoString := []
  deriving DecidableEq, Repr

/-- Go `Article`; `τ` is the type `time.Time`. -/
structure Article (τ : Type) where
  Source : ArticleSource
  Author : GoString
  Title : GoString
  Description : GoString
  URL : GoString
  URLToImage : GoString
  PublishedAt : τ
  deriving DecidableEq, Repr

/-- Go `NewsResponse`. A Go slice is its elements and the rest of its backing
array: `ArticlesSpare` holds `Articles[len:cap]` as far as an earlier array
of the body wrote it (slots never written hold zero values and are not
kept; how many there are depends on the allocator). -/
structure NewsResponse (τ : Type) where
  Status : GoString := []
  TotalResults : Int := 0
  Articles : List (Article τ) := []
  ArticlesSpare : List (Article τ) := []
  deriving DecidableEq, Repr

/-- Go `Source`. -/
structure Source where
  ID : GoString := []
  Name : GoString := []
  Description : GoString := []
  URL : GoString := []
  Category : GoString := []
  Language : GoString := []
  Country : GoString := []
  deriving DecidableEq, Repr

/-- Go `SourcesResponse`; `SourcesSpare` holds `Sources[len:cap]` as far as an
earlier array of the body wrote it, see `NewsResponse`. -/
structure SourcesResponse where
  Status : GoString := []
  Sources : List Source := []
  SourcesSpare : List Source := []
  deriving DecidableEq, Repr

/-- The zero value `Article{}`. -/
def Article.zero (L : TimeLib) : Article L.Time :=
  { Source := {}, Author := [], Title := [], Description := [], URL := [], URLToImage := [],
    PublishedAt := L.zero }

/-- Go `http.Client` of `net/http`, the field this package sets. -/
structure HttpClient where
  Timeout : Nat
  deriving DecidableEq, Repr

/-- Go `Client` (client.go:77-79): it declares `httpClient` and nothing else. -/
structure Client where
  httpClient : HttpClient
  deriving DecidableEq, Repr

/-- Go `baseURL`. -/
def baseURL : GoString := str "https://newsapi.org/v2"

/-- Go `defaultTimeout = 2 * time.Second`, in nanoseconds. -/
def defaultTimeout : Nat := 2 * 1000000000

set_option linter.unusedVariables false in
/-- Go `New(apiKey)` (client.go:82-91). The literal of the source also writes
`apiKey: apiKey` into the `http.Client`, which has no such field, and `Client`
has none either: the value that `New` returns holds the timeout only. -/
def New (apiKey : GoString) : Client :=
  let cli : Client := { httpClient := { Timeout := defaultTimeout } }
  cli

/-! ## encoding/json (`json.Unmarshal` into the structs above)

A response body that is valid JSON text is given as its document tree: string
values and member names are the decoded strings, numbers keep their literal,
objects keep their members in order, repeated names included. -/

/-- A JSON document. -/
inductive JValue where
  | null
  | bool (b : Bool)
  | num (lit : GoString)
  | str (s : GoString)
  | arr (elems : List JValue)
  | obj (members : List (GoString × JValue))

/-- The name folding of the struct decoder: ASCII letters are upper-cased, and
the two non-ASCII runes whose case folding is an ASCII letter, the Kelvin sign
(U+212A) and the long s (U+017F), become `K` and `S`. Member names match a
field when their foldings are equal; all field names of this package are
ASCII and differ after folding, so an exact match (which the decoder tries
first) picks the same field. The counter is the number of bytes of an
already folded rune still to skip. -/
def foldFrom : Nat → GoString → GoString
  | _, [] => []
  | skip + 1, _ :: rest => foldFrom skip rest
  | 0, c :: rest =>
    if (c :: rest).take 3 = [0xE2, 0x84, 0xAA] then ch 'K' :: foldFrom 2 rest
    else if (c :: rest).take 2 = [0xC5, 0xBF] then ch 'S' :: foldFrom 1 rest
    else (if ch 'a' ≤ c ∧ c ≤ ch 'z' then c - 32 else c) :: foldFrom 0 rest

/-- The folding of a member name or field name; see `foldFrom`. -/
def foldName (s : GoString) : GoString := foldFrom 0 s

/-- Whether member name `key` selects the field tagged `json:"name"`. -/
def isField (key : GoString) (name : String) : Bool :=
  foldName key = foldName (str name)

/-- Go `strconv.ParseInt(lit, 10, 64)`: an optional sign and decimal digits,
in the range of `int64`. -/
def parseInt (lit : GoString) : Option Int :=
  let (neg, digits) :=
    match lit with
    | c :: rest => if c = ch '-' then (true, rest) else if c = ch '+' then (false, rest) else (false, lit)
    | [] => (false, [])
  if digits = [] ∨ ¬ digits.all isDigit then none
  else
    let n : Int := digits.foldl (fun acc c => acc * 10 + ((c.val : Int) - 48)) 0
    let v := if neg then -n else n
    if -(2 : Int) ^ 63 ≤ v ∧ v < (2 : Int) ^ 63 then some v else none

/-- A JSON value stored into a `string` field holding `cur`. -/
def decodeString (v : JValue) (cur : GoString) : Option GoString :=
  match v with
  | .str s => some s
  | .null => some cur
  | _ => none

/-- A JSON value stored into an `int` field holding `cur`. -/
def decodeInt (v : JValue) (cur : Int) : Option Int :=
  match v with
  | .num lit => parseInt lit
  | .null => some cur
  | _ => none

/-- A JSON value stored into a `time.Time` field holding `cur`. -/
def decodeTime (L : TimeLib) (v : JValue) (cur : L.Time) : Option L.Time :=
  match v with
  | .str s => L.parse s
  | .null => some cur
  | _ => none

/-- The members of a JSON object stored in order into a struct value:
`setField` stores one member, `none` is a value the field cannot take. -/
def decodeMembers {σ : Type} (setField : GoString → JValue → σ → Option σ) :
    List (GoString × JValue) → σ → Option σ
  | [], s => some s
  | (k, v) :: rest, s =>
    match setField k v s with
    | none => none
    | some s1 => decodeMembers setField rest s1

/-- A JSON value stored into a struct holding `cur`: `null` leaves it as it
is, an object stores its members, anything else is a type mismatch. -/
def decodeStruct {σ : Type} (setField : GoString → JValue → σ → Option σ)
    (v : JValue) (cur : σ) : Option σ :=
  match v with
  | .null => some cur
  | .obj members => decodeMembers setField members cur
  | _ => none

/-- The elements of a JSON array stored one after another into the backing
array `cur` of a slice: element `i` is decoded into `cur[i]` when that slot
was written before, and into a zero value otherwise. -/
def decodeElems {α : Type} (decodeElem : JValue → α → Option α) (zero : α) :
    List JValue → List α → Option (List α)
  | [], _ => some []
  | x :: xs, cur =>
    match decodeElem x (cur.headD zero) with
    | none => none
    | some e =>
      match decodeElems decodeElem zero xs cur.tail with
      | none => none
      | some es => some (e :: es)

/-- A JSON value stored into a slice with elements `cur` and written spare
slots `spare`: `null` and the empty array give a new empty slice; an array of
`n` elements is decoded into the first `n` slots of the backing array
`cur ++ spare`, which become the elements, and the slots after them stay as
they are and become the spare ones. -/
def decodeSlice {α : Type} (decodeElem : JValue → α → Option α) (zero : α)
    (v : JValue) (cur : List α × List α) : Option (List α × List α) :=
  match v with
  | .null => some ([], [])
  | .arr [] => some ([], [])
  | .arr elems =>
    (decodeElems decodeElem zero elems (cur.1 ++ cur.2)).map
      fun es => (es, (cur.1 ++ cur.2).drop elems.length)
  | _ => none

/-- One member stored into an `Error`. -/
def Error.setField (k : GoString) (v : JValue) (e : NewsAPI.Error) : Option NewsAPI.Error :=
  if isField k "status" then (decodeString v e.Status).map fun x => { e with Status := x }
  else if isField k "code" then (decodeString v e.Code).map fun x => { e with Code := x }
  else if isField k "message" then (decodeString v e.Message).map fun x => { e with Message := x }
  else some e

/-- One member stored into an `ArticleSource`. -/
def ArticleSource.setField (k : GoString) (v : JValue) (a : ArticleSource) :
    Option ArticleSource :=
  if isField k "id" then (decodeString v a.ID).map fun x => { a with ID := x }
  else if isField k "name" then (decodeString v a.Name).map fun x => { a with Name := x }
  else some a

/-- One member stored into an `Article`. -/
def Article.setField (L : TimeLib) (k : GoString) (v : JValue) (a : Article L.Time) :
    Option (Article L.Time) :=
  if isField k "source" then
    (decodeStruct ArticleSource.setField v a.Source).map fun x => { a with Source := x }
  else if isField k "author" then (decodeString v a.Author).map fun x => { a with Author := x }
  else if isField k "title" then (decodeString v a.Title).map fun x => { a with Title := x }
  else if isField k "description" then
    (decodeString v a.Description).map fun x => { a with Description := x }
  else if isField k "url" then (decodeString v a.URL).map fun x => { a with URL := x }
  else if isField k "urlToImage" then
    (decodeString v a.URLToImage).map fun x => { a with URLToImage := x }
  else if isField k "publishedAt" then
    (decodeTime L v a.PublishedAt).map fun x => { a with PublishedAt := x }
  else some a

/-- One member stored into a `NewsResponse`. -/
def NewsResponse.setField (L : TimeLib) (k : GoString) (v : JValue) (nr : NewsResponse L.Time) :
    Option (NewsResponse L.Time) :=
  if isField k "status" then (decodeString v nr.Status).map fun x => { nr with Status := x }
  else if isField k "totalResults" then
    (decodeInt v nr.TotalResults).map fun x => { nr with TotalResults := x }
  else if isField k "articles" then
    (decodeSlice (decodeStruct (Article.setField L)) (Article.zero L) v
        (nr.Articles, nr.ArticlesSpare)).map
      fun x => { nr with Articles := x.1, ArticlesSpare := x.2 }
  else some nr

/-- One member stored into a `Source`. -/
def Source.setField (k : GoString) (v : JValue) (a : Source) : Option Source :=
  if isField k "id" then (decodeString v a.ID).map fun x => { a with ID := x }
  else if isField k "name" then (decodeString v a.Name).map fun x => { a with Name := x }
  else if isField k "description" then
    (decodeString v a.Description).map fun x => { a with Description := x }
  else if isField k "url" then (decodeString v a.URL).map fun x => { a with URL := x }
  else if isField k "category" then (decodeString v a.Category).map fun x => { a with Category := x }
  else if isField k "language" then (decodeString v a.Language).map fun x => { a with Language := x }
  else if isField k "country" then (decodeString v a.Country).map fun x => { a with Country := x }
  else some a

/-- One member stored into a `SourcesResponse`. -/
def SourcesResponse.setField (k : GoString) (v : JValue) (sr : SourcesResponse) :
    Option SourcesResponse :=
  if isField k "status" then (decodeString v sr.Status).map fun x => { sr with Status := x }
  else if isField k "sources" then
    (decodeSlice (decodeStruct Source.setField) {} v (sr.Sources, sr.SourcesSpare)).map
      fun x => { sr with Sources := x.1, SourcesSpare := x.2 }
  else some sr

/-- Go `json.Unmarshal(body, &s)` for a struct `s`: `body` is `none` when the
bytes are not valid JSON; the result is `none` when `Unmarshal` returns a
non-nil error, and the value of `s` afterwards otherwise. -/
def Unmarshal {σ : Type} (setField : GoString → JValue → σ → Option σ)
    (body : Option JValue) (s : σ) : Option σ :=
  match body with
  | none => none
  | some v => decodeStruct setField v s

/-! ## The operations (client.go:93-201) -/

/-- What `cli.httpClient.Do(req)` followed by `ioutil.ReadAll(res.Body)` gives:
`Do` returns an error, or `ReadAll` returns an error, or the body is read
(`none` when its bytes are not valid JSON). -/
inductive RoundTrip where
  | doError (e : GoString)
  | readError (e : GoString)
  | body (doc : Option JValue)

/-- The error a wrapped error carries: from `Do`, from `ReadAll`, or from
`json.Unmarshal`. -/
inductive Cause where
  | transport (e : GoString)
  | read (e : GoString)
  | json
  deriving DecidableEq, Repr

/-- The `error` values the operations return: `errors.Wrap(cause, message)`,
or an `Error` value decoded from the body. -/
inductive GoError where
  | wrap (cause : Cause) (message : GoString)
  | api (e : Error)
  deriving DecidableEq, Repr

/-- How a call ends: `log.Fatal` ends the process, or the call returns the
pair `(value, error)`, each of which may be `nil`. -/
inductive Outcome (α : Type) where
  | fatal
  | ret (val : Option α) (err : Option GoError)
  deriving DecidableEq, Repr

/-- Go `fmt.Sprintf("%s/%s?", baseURL, endpoint)`. -/
def endpointBase (endpoint : String) : GoString :=
  baseURL ++ str "/" ++ str endpoint ++ str "?"

/-- Go `Client.GetTopHeadlines` (client.go:94-128); `net` is the network behind
`cli.httpClient`. The header value is the selector `cli.apiKey`: `Client`
declares no field of that name, so what the selector denotes is the
parameter `apiKey`. The function returns the value `nr` where its signature
has a pointer; the pointer is to that value. -/
def GetTopHeadlines (apiKey : Client → GoString) (L : TimeLib) (cli : Client)
    (net : Request → RoundTrip) (args : List GoString) : Outcome (NewsResponse L.Time) :=
  let url := buildURL (endpointBase "top-headlines") args
  match NewRequest (str "GET") url with
  | none => .fatal
  | some req =>
    let req := req.setHeader (str "Authorization") (apiKey cli)
    match net req with
    | .doError e => .ret none (some (.wrap (.transport e) (str "client get request")))
    | .readError e => .ret none (some (.wrap (.read e) (str "read request body")))
    | .body body =>
      match Unmarshal (NewsResponse.setField L) body {} with
      | none => .ret none (some (.wrap .json (str "unmrashal to news response")))
      | some nr =>
        if nr.Status = str "error" then
          match Unmarshal Error.setField body {} with
          | none => .ret none (some (.wrap .json (str "unmarshal to error")))
          | some err => .ret none (some (.api err))
        else .ret (some nr) none

/-- Go `Client.GetEverything` (client.go:131-164); `apiKey` is what the
undeclared selector `cli.apiKey` denotes, as in `GetTopHeadlines`. -/
def GetEverything (apiKey : Client → GoString) (L : TimeLib) (cli : Client)
    (net : Request → RoundTrip) (args : List GoString) : Outcome (NewsResponse L.Time) :=
  let url := buildURL (endpointBase "everything") args
  match NewRequest (str "GET") url with
  | none => .fatal
  | some req =>
    let req := req.setHeader (str "Authorization") (apiKey cli)
    match net req with
    | .doError e => .ret none (some (.wrap (.transport e) (str "client get request")))
    | .readError e => .ret none (some (.wrap (.read e) (str "read request body")))
    | .body body =>
      match Unmarshal (NewsResponse.setField L) body {} with
      | none => .ret none (some (.wrap .json (str "unmrashal to news response")))
      | some nr =>
        if nr.Status = str "error" then
          match Unmarshal Error.setField body {} with
          | none => .ret none (some (.wrap .json (str "unmarshal to error")))
          | some err => .ret none (some (.api err))
        else .ret (some nr) none

/-- Go `GetSources` (client.go:167-201), with `Client` for the receiver type
the source spells `Cliebt`; `apiKey` is what the undeclared selector
`cli.apiKey` denotes. The last statement is `return nr, nil`: the function
declares `sr`, and `nr` has no declaration in it or in the package, so the
value it denotes is a parameter. -/
def GetSources (apiKey : Client → GoString) (nr : Option SourcesResponse) (cli : Client)
    (net : Request → RoundTrip) (args : List GoString) : Outcome SourcesResponse :=
  let url := buildURL (endpointBase "sources") args
  match NewRequest (str "GET") url with
  | none => .fatal
  | some req =>
    let req := req.setHeader (str "Authorization") (apiKey cli)
    match net req with
    | .doError e => .ret none (some (.wrap (.transport e) (str "client get request")))
    | .readError e => .ret none (some (.wrap (.read e) (str "read request body")))
    | .body body =>
      match Unmarshal SourcesResponse.setField body {} with
      | none => .ret none (some (.wrap .json (str "unmrashal to sources response")))
      | some sr =>
        if sr.Status = str "error" then
          match Unmarshal Error.setField body {} with
          | none => .ret none (some (.wrap .json (str "unmarshal to error")))
          | some err => .ret none (some (.api err))
        else .ret nr none

/-! ## Specification side: the request and the envelope -/

/-- The request the interface section describes: `GET` on the endpoint with
the escaped fragments as query and the raw key as `Authorization`. -/
def issued (endpoint : String) (apiKey : GoString) (args : List GoString) : Request :=
  { Method := str "GET"
    URL := { Scheme := str "https", Host := str "newsapi.org",
             Path := str "/v2/" ++ str endpoint,
             ForceQuery := decide (PathEscape (ampJoined args) = []),
             RawQuery := PathEscape (ampJoined args) }
    Header := [(str "Authorization", apiKey)] }

/-- The values of the members of an object whose name selects field `name`. -/
def membersNamed (members : List (GoString × JValue)) (name : String) : List JValue :=
  (members.filter fun kv => isField kv.1 name).map fun kv => kv.2

/-- The value of member `name` of an object: of the last one when the name
repeats. -/
def lastMember (members : List (GoString × JValue)) (name : String) : Option JValue :=
  (membersNamed members name).getLast?

/-- The string that member `name` of an object holds, the last such member
counting when the name repeats. -/
def lastString (members : List (GoString × JValue)) (name : String) : Option GoString :=
  match lastMember members name with
  | some (.str s) => some s
  | _ => none

/-- The value of member `name` of an object that has exactly one. -/
def theMember (members : List (GoString × JValue)) (name : String) : Option JValue :=
  match membersNamed members name with
  | [v] => some v
  | _ => none

/-- The string value of member `name`. -/
def stringMember (members : List (GoString × JValue)) (name : String) : Option GoString :=
  match theMember members name with
  | some (.str s) => some s
  | _ => none

/-- The article source an object denotes: `{"id": string, "name": string}`. -/
def envelopeSource : JValue → Option ArticleSource
  | .obj members =>
    match stringMember members "id", stringMember members "name" with
    | some id, some name => some { ID := id, Name := name }
    | _, _ => none
  | _ => none

/-- The article an object of the envelope denotes: every member present once,
strings for the text fields, and a `publishedAt` string the time library reads. -/
def envelopeArticle (L : TimeLib) : JValue → Option (Article L.Time)
  | .obj members =>
    match (theMember members "source").bind envelopeSource,
          stringMember members "author", stringMember members "title",
          stringMember members "description", stringMember members "url",
          stringMember members "urlToImage",
          (stringMember members "publishedAt").bind L.parse with
    | some source, some author, some title, some description, some url, some urlToImage,
      some publishedAt =>
      some { Source := source, Author := author, Title := title, Description := description,
             URL := url, URLToImage := urlToImage, PublishedAt := publishedAt }
    | _, _, _, _, _, _, _ => none
  | _ => none

/-- The articles a list of JSON values denotes, in the order of the list. -/
def envelopeArticles (L : TimeLib) : List JValue → Option (List (Article L.Time))
  | [] => some []
  | x :: xs =>
    match envelopeArticle L x, envelopeArticles L xs with
    | some a, some as => some (a :: as)
    | _, _ => none

/-- The news response a success envelope denotes:
`{"status": string, "totalResults": int, "articles": [article, ...]}`. -/
def envelopeNews (L : TimeLib) : JValue → Option (NewsResponse L.Time)
  | .obj members =>
    match stringMember members "status", theMember members "totalResults",
          theMember members "articles" with
    | some status, some (.num lit), some (.arr elems) =>
      match parseInt lit, envelopeArticles L elems with
      | some total, some articles =>
        some { Status := status, TotalResults := total, Articles := articles }
      | _, _ => none
    | _, _, _ => none
  | _ => none

/-! ## An instance of the time library, for evaluating examples

The strict reading of RFC 3339 timestamps (`YYYY-MM-DDTHH:MM:SS[.frac]` and
`Z` or a numeric offset), as seconds and nanoseconds since the Unix epoch. -/

/-- An instant and the zone offset it was written with. -/
structure Instant where
  sec : Int
  nsec : Nat
  offset : Int
  deriving DecidableEq, Repr

/-- A decimal number of exactly the given digits within `lo..hi`. -/
def parseUint (s : GoString) (lo hi : Nat) : Option Nat :=
  if s.all isDigit then
    let x := s.foldl (fun acc c => acc * 10 + (c.val - 48)) 0
    if lo ≤ x ∧ x ≤ hi then some x else none
  else none

/-- Leap years of the Gregorian calendar. -/
def isLeap (year : Nat) : Bool := year % 4 = 0 && (year % 100 ≠ 0 || year % 400 = 0)

/-- Days of a month. -/
def daysIn (month year : Nat) : Nat :=
  if month = 2 then (if isLeap year then 29 else 28)
  else if month = 4 ∨ month = 6 ∨ month = 9 ∨ month = 11 then 30
  else 31

/-- Days from 1970-01-01 to the given civil date. -/
def daysFromCivil (year month day : Nat) : Int :=
  let y : Int := if month ≤ 2 then (year : Int) - 1 else year
  let era : Int := y / 400
  let yoe : Int := y - era * 400
  let mp : Int := if month > 2 then (month : Int) - 3 else (month : Int) + 9
  let doy : Int := (153 * mp + 2) / 5 + (day : Int) - 1
  let doe : Int := yoe * 365 + yoe / 4 - yoe / 100 + doy
  era * 146097 + doe - 719468

/-- The fraction `.ddd` of a second in nanoseconds, and the text after it. -/
def parseFraction (s : GoString) : Nat × GoString :=
  match s with
  | c :: d :: _ =>
    if c = ch '.' ∧ isDigit d then
      let ds := (s.drop 1).takeWhile isDigit
      let ds9 := ds.take 9
      ((ds9.foldl (fun acc c => acc * 10 + (c.val - 48)) 0) * 10 ^ (9 - ds9.length),
       (s.drop 1).dropWhile isDigit)
    else (0, s)
  | _ => (0, s)

/-- The zone offset in seconds written by `Z` or `+hh:mm` / `-hh:mm`. -/
def parseZone (s : GoString) : Option Int :=
  if s = str "Z" then some 0
  else if s.length ≠ 6 then none
  else
    match parseUint ((s.drop 1).take 2) 0 23, parseUint ((s.drop 4).take 2) 0 59 with
    | some hr, some mm =>
      if (s.head? = some (ch '-') ∨ s.head? = some (ch '+')) ∧ s.get? 3 = some (ch ':') then
        let off : Int := ((hr * 60 + mm) * 60 : Nat)
        some (if s.head? = some (ch '-') then -off else off)
      else none
    | _, _ => none

/-- A strict RFC 3339 timestamp read as an instant. -/
def parseRFC3339 (s : GoString) : Option Instant :=
  if s.length < 19 then none
  else
    match parseUint (s.take 4) 0 9999, parseUint ((s.drop 5).take 2) 1 12,
          parseUint ((s.drop 11).take 2) 0 23, parseUint ((s.drop 14).take 2) 0 59,
          parseUint ((s.drop 17).take 2) 0 59 with
    | some year, some month, some hour, some min, some sec =>
      match parseUint ((s.drop 8).take 2) 1 (daysIn month year) with
      | none => none
      | some day =>
        if s.get? 4 = some (ch '-') ∧ s.get? 7 = some (ch '-') ∧ s.get? 10 = some (ch 'T')
            ∧ s.get? 13 = some (ch ':') ∧ s.get? 16 = some (ch ':') then
          let (nsec, rest) := parseFraction (s.drop 19)
          match parseZone rest with
          | none => none
          | some off =>
            some { sec := daysFromCivil year month day * 86400
                            + ((hour * 3600 + min * 60 + sec : Nat) : Int) - off
                   nsec := nsec, offset := off }
        else none
    | _, _, _, _, _ => none

/-- The time library instance used in the examples. -/
abbrev rfc3339 : TimeLib :=
  { Time := Instant, zero := { sec := -62135596800, nsec := 0, offset := 0 }, parse := parseRFC3339 }

/-! ## Auxiliary definitions for the proofs -/

/-- Bytes that end neither the URL text nor its query: no control byte, no
`#`, no `?`. -/
def plainByte (c : Byte) : Bool :=
  !(c.val < 0x20 || c.val = 0x7f) && c != ch '#' && c != ch '?'

/-- The decoding half of the two news operations, on what the network gave. -/
def respondNews (L : TimeLib) : RoundTrip → Outcome (NewsResponse L.Time)
  | .doError e => .ret none (some (.wrap (.transport e) (str "client get request")))
  | .readError e => .ret none (some (.wrap (.read e) (str "read request body")))
  | .body body =>
    match Unmarshal (NewsResponse.setField L) body {} with
    | none => .ret none (some (.wrap .json (str "unmrashal to news response")))
    | some nr =>
      if nr.Status = str "error" then
        match Unmarshal Error.setField body {} with
        | none => .ret none (some (.wrap .json (str "unmarshal to error")))
        | some err => .ret none (some (.api err))
      else .ret (some nr) none

/-- The decoding half of `GetSources`, on what the network gave. -/
def respondSources (nr : Option SourcesResponse) : RoundTrip → Outcome SourcesResponse
  | .doError e => .ret none (some (.wrap (.transport e) (str "client get request")))
  | .readError e => .ret none (some (.wrap (.read e) (str "read request body")))
  | .body body =>
    match Unmarshal SourcesResponse.setField body {} with
    | none => .ret none (some (.wrap .json (str "unmrashal to sources response")))
    | some sr =>
      if sr.Status = str "error" then
        match Unmarshal Error.setField body {} with
        | none => .ret none (some (.wrap .json (str "unmarshal to error")))
        | some err => .ret none (some (.api err))
      else .ret nr none

/-- The three endpoint names. -/
def isEndpoint (e : String) : Prop := e = "top-headlines" ∨ e = "everything" ∨ e = "sources"

/-- Values stored one after another into a field holding `x`. -/
def decodeVals {τ : Type} (dec : JValue → τ → Option τ) : List JValue → τ → Option τ
  | [], x => some x
  | v :: vs, x =>
    match dec v x with
    | none => none
    | some y => decodeVals dec vs y

/-- Errors wrapped around a failure of the transport (`Do` or `ReadAll`). -/
def GoError.isTransport : GoError → Bool
  | .wrap (.transport _) _ => true
  | .wrap (.read _) _ => true
  | _ => false

/-- Errors wrapped around a failure of `json.Unmarshal`. -/
def GoError.isDecode : GoError → Bool
  | .wrap .json _ => true
  | _ => false

/-- Errors that are an `Error` value decoded from the body. -/
def GoError.isAPI : GoError → Bool
  | .api _ => true
  | _ => false

/-- The error kinds of the specification for one call: `out` is what the call
returned, `rt` what the network gave, and `status body` the status that `body`
decodes to in the target shape of the operation (`none` when it does not
parse into that shape). A failed transport gives the wrapped transport
error; a body that does not parse into the target shape, or that has status
`error` and does not parse into the error shape, gives a wrapped decode
error; an API `Error` value comes only from a body that parsed with status
`error`, and is the error shape of that body. -/
def StageKinds {α : Type} (out : Outcome α) (rt : RoundTrip)
    (status : Option JValue → Option GoString) : Prop :=
  (∀ e, rt = .doError e →
      out = .ret none (some (.wrap (.transport e) (str "client get request"))))
  ∧ (∀ e, rt = .readError e →
      out = .ret none (some (.wrap (.read e) (str "read request body"))))
  ∧ (∀ body, rt = .body body → status body = none →
      ∃ m, out = .ret none (some (.wrap .json m)))
  ∧ (∀ body, rt = .body body → status body = some (str "error") →
      Unmarshal Error.setField body {} = none →
      ∃ m, out = .ret none (some (.wrap .json m)))
  ∧ (∀ v e, out = .ret v (some (.api e)) →
      v = none ∧ ∃ doc, rt = .body (some doc) ∧ status (some doc) = some (str "error")
        ∧ Unmarshal Error.setField (some doc) {} = some e)

/-! ## Bodies used in the examples -/

/-- Go `testAPIKey` (client_test.go:16). -/
def testAPIKey : GoString := str "key"

/-- Go `topHeadlinesOKResponse` (client_test.go:18-33), as a document. -/
def topHeadlinesOKResponse : JValue :=
  .obj [
    (str "status", .str (str "ok")),
    (str "totalResults", .num (str "1")),
    (str "articles", .arr [
      .obj [
        (str "source", .obj [
          (str "id", .str (str "nbc-news")),
          (str "name", .str (str "NBC News"))]),
        (str "author", .str (str "Claire Atkinson, Daniella Silva")),
        (str "title", .str (str "Giuliani says Trump did not intervene to nix AT&T-Time Warner merger")),
        (str "description", .str (str "Rudy Giuliani said Saturday that the president did not intervene in the Department of Justice decision to deny the AT&T- Time Warner merger.")),
        (str "url", .str (str "https://www.nbcnews.com/news/us-news/giuliani-suggests-trump-intervened-nix-t-time-warner-merger-n873616")),
        (str "urlToImage", .str (str "https://media4.s-nbcnews.com/j/newscms/2018_17/2405161/180419-rudy-giuliani-2016-ac-1140p_14b4f34a294bbd41af891c21ac10aa18.1200;630;7;70;5.jpg")),
        (str "publishedAt", .str (str "2018-05-12T19:18:31Z"))]])]

/-- The `result` the test expects for `topHeadlinesOKResponse`
(client_test.go:56-73). -/
def topHeadlinesOKResult : NewsResponse Instant :=
  { Status := str "ok"
    TotalResults := 1
    Articles := [
      { Source := { ID := str "nbc-news", Name := str "NBC News" }
        Author := str "Claire Atkinson, Daniella Silva"
        Title := str "Giuliani says Trump did not intervene to nix AT&T-Time Warner merger"
        Description := str "Rudy Giuliani said Saturday that the president did not intervene in the Department of Justice decision to deny the AT&T- Time Warner merger."
        URL := str "https://www.nbcnews.com/news/us-news/giuliani-suggests-trump-intervened-nix-t-time-warner-merger-n873616"
        URLToImage := str "https://media4.s-nbcnews.com/j/newscms/2018_17/2405161/180419-rudy-giuliani-2016-ac-1140p_14b4f34a294bbd41af891c21ac10aa18.1200;630;7;70;5.jpg"
        PublishedAt := { sec := 1526152711, nsec := 0, offset := 0 } }] }

/-- The message of `errorResponse`. -/
def apiKeyMissingMessage : GoString :=
  str "Your API key is missing. Append this to the URL with the apiKey param, or use the x-api-key HTTP header."

/-- The members of Go `errorResponse` (client_test.go:35-39). -/
def errorMembers : List (GoString × JValue) :=
  [(str "status", .str (str "error")),
   (str "code", .str (str "apiKeyMissing")),
   (str "message", .str apiKeyMissingMessage)]

/-- Go `errorResponse` (client_test.go:35-39), as a document. -/
def errorResponse : JValue := .obj errorMembers

/-- The `Error` value `errorResponse` decodes to. -/
def apiKeyMissing : Error :=
  { Status := str "error", Code := str "apiKeyMissing", Message := apiKeyMissingMessage }

/-- The body `errorResponse` with one more member, `"articles": "none"`. -/
def errorWithArticlesText : JValue := .obj (errorMembers ++ [(str "articles", .str (str "none"))])

/-- The body `errorResponse` with the number `404` as its message. -/
def errorWithNumericMessage : JValue :=
  .obj [(str "status", .str (str "error")),
        (str "code", .str (str "apiKeyMissing")),
        (str "message", .num (str "404"))]

/-- The body `{"status": "ok", "sources": "x"}`. -/
def okWithSourcesText : JValue :=
  .obj [(str "status", .str (str "ok")), (str "sources", .str (str "x"))]

/-- The body `{"status": "ok", "sources": [{"id": "abc-news", "name": "ABC News"}]}`. -/
def sourcesOKResponse : JValue :=
  .obj [(str "status", .str (str "ok")),
        (str "sources", .arr [.obj [(str "id", .str (str "abc-news")),
                                    (str "name", .str (str "ABC News"))]])]

/-- The sources response that `sourcesOKResponse` decodes to. -/
def sourcesOKResult : SourcesResponse :=
  { Status := str "ok", Sources := [{ ID := str "abc-news", Name := str "ABC News" }] }

/-- The body `{"status": "error", "code": 5}`. -/
def errorWithNumericCode : JValue :=
  .obj [(str "status", .str (str "error")), (str "code", .num (str "5"))]

/-- A server that answers every request with the given body, as the test
server of client_test.go does. -/
def serve (doc : JValue) : Request → RoundTrip := fun _ => .body (some doc)

/-! ## Lemmas on the query builder -/

theorem joinLoop_eq (n : Nat) (rest : List GoString) :
    ∀ (i : Nat) (params : GoString), i + rest.length = n →
      joinLoop n i rest params = params ++ ampJoined rest := by
  induction rest with
  | nil => intro i params _; simp [joinLoop, ampJoined]
  | cons a rest ih =>
    intro i params h
    cases rest with
    | nil =>
      simp only [List.length_cons, List.length_nil] at h
      have : ¬ ((i : Int) < (n : Int) - 1) := by omega
      simp [joinLoop, ampJoined, this]
    | cons b rest =>
      simp only [List.length_cons] at h
      have hlt : (i : Int) < (n : Int) - 1 := by omega
      have := ih (i + 1) (params ++ a ++ str "&") (by simp only [List.length_cons]; omega)
      rw [joinLoop]
      simp only [hlt, if_true]
      rw [this]
      simp [ampJoined]

theorem joinParams_eq (args : List GoString) : joinParams args = ampJoined args := by
  simpa [joinParams] using joinLoop_eq args.length args 0 [] (by simp)

set_option maxRecDepth 100000 in
theorem shouldEscape_segment (c : Byte) :
    shouldEscape c encodePathSegment = !segmentSafe c := by
  revert c; decide

theorem escape_cons (c : Byte) (s : GoString) :
    escape (c :: s) encodePathSegment
      = (if shouldEscape c encodePathSegment then pct c else [c])
          ++ escape s encodePathSegment := by
  simp [escape]

theorem escape_length (s : GoString) :
    (escape s encodePathSegment).length
      = s.length + 2 * (s.filter fun c => shouldEscape c encodePathSegment).length := by
  induction s with
  | nil => simp [escape]
  | cons c s ih =>
    rw [escape_cons]
    by_cases h : shouldEscape c encodePathSegment = true
    · simp [h, pct, ih]; omega
    · simp [h, ih]; omega

theorem escape_id_of_safe (s : GoString) (h : ∀ c ∈ s, segmentSafe c = true) :
    PathEscape s = s := by
  induction s with
  | nil => simp [PathEscape, escape]
  | cons c s ih =>
    have hc : shouldEscape c encodePathSegment = false := by
      rw [shouldEscape_segment, h c (List.mem_cons_self _ _)]; rfl
    have := ih (fun d hd => h d (List.mem_cons_of_mem _ hd))
    simp only [PathEscape] at this ⊢
    rw [escape_cons, this]
    simp [hc]

theorem escape_id_iff (s : GoString) :
    PathEscape s = s ↔ ∀ c ∈ s, segmentSafe c = true := by
  constructor
  · intro h c hc
    have hl := escape_length s
    rw [show escape s encodePathSegment = s from h] at hl
    have h0 : (s.filter fun c => shouldEscape c encodePathSegment).length = 0 := by omega
    have hnil := List.length_eq_zero.mp h0
    have : ¬ (shouldEscape c encodePathSegment = true) := by
      intro hs
      have : c ∈ s.filter fun c => shouldEscape c encodePathSegment :=
        List.mem_filter.mpr ⟨hc, hs⟩
      rw [hnil] at this
      exact absurd this (List.not_mem_nil _)
    rw [shouldEscape_segment] at this
    simpa using this
  · exact escape_id_of_safe s

theorem mem_ampJoined (args : List GoString) (c : Byte) :
    c ∈ ampJoined args → c = ch '&' ∨ ∃ a ∈ args, c ∈ a := by
  induction args with
  | nil => simp [ampJoined]
  | cons a rest ih =>
    cases rest with
    | nil => intro h; right; exact ⟨a, by simp, by simpa [ampJoined] using h⟩
    | cons b rest =>
      intro h
      simp only [ampJoined, List.mem_append] at h
      rcases h with (h | h) | h
      · right; exact ⟨a, by simp, h⟩
      · left
        have : str "&" = [ch '&'] := by decide
        rw [this] at h
        simpa using h
      · rcases ih h with h | ⟨x, hx, hcx⟩
        · left; exact h
        · right; exact ⟨x, List.mem_cons_of_mem _ hx, hcx⟩

theorem mem_ampJoined_of_mem (args : List GoString) (a : GoString) (c : Byte)
    (ha : a ∈ args) (hc : c ∈ a) : c ∈ ampJoined args := by
  induction args with
  | nil => simp at ha
  | cons x rest ih =>
    cases rest with
    | nil =>
      simp only [List.mem_singleton] at ha
      subst ha
      simpa [ampJoined] using hc
    | cons b rest =>
      simp only [ampJoined, List.mem_append]
      rcases List.mem_cons.mp ha with h | h
      · subst h; left; left; exact hc
      · right; exact ih h

theorem ampJoined_safe_iff (args : List GoString) :
    (∀ c ∈ ampJoined args, segmentSafe c = true)
      ↔ ∀ a ∈ args, ∀ c ∈ a, segmentSafe c = true := by
  constructor
  · intro h a ha c hc
    exact h c (mem_ampJoined_of_mem args a c ha hc)
  · intro h c hc
    rcases mem_ampJoined args c hc with h1 | ⟨a, ha, hca⟩
    · subst h1; decide
    · exact h a ha c hca

/-! ## Lemmas on request construction -/

set_option maxRecDepth 100000 in
theorem plainByte_of_unescaped (b : Byte) :
    shouldEscape b encodePathSegment = false → plainByte b = true := by
  revert b; decide

set_option maxRecDepth 100000 in
set_option maxHeartbeats 4000000 in
theorem plainByte_pct_all (b : Byte) : (pct b).all plainByte = true := by
  revert b; decide

theorem plainByte_of_pct (b : Byte) : ∀ c ∈ pct b, plainByte c = true := by
  intro c hc
  exact List.all_eq_true.mp (plainByte_pct_all b) c hc

theorem plainByte_escape (s : GoString) : ∀ c ∈ PathEscape s, plainByte c = true := by
  intro c hc
  simp only [PathEscape, escape, List.mem_flatMap] at hc
  obtain ⟨b, _, hcb⟩ := hc
  have hne : ¬ (b = ch ' ' ∧ encodePathSegment = encodeQueryComponent) := by
    intro h; exact absurd h.2 (by decide)
  rw [if_neg hne] at hcb
  by_cases h : shouldEscape b encodePathSegment = true
  · rw [if_pos h] at hcb
    exact plainByte_of_pct b c hcb
  · rw [if_neg h] at hcb
    simp only [List.mem_singleton] at hcb
    subst hcb
    exact plainByte_of_unescaped c (by simpa using h)

theorem cut_not_mem (sep : Byte) (s : GoString) (h : sep ∉ s) : cut sep s = (s, none) := by
  induction s with
  | nil => rfl
  | cons c s ih =>
    have hc : c ≠ sep := fun e => h (e ▸ List.mem_cons_self _ _)
    have := ih (fun hm => h (List.mem_cons_of_mem _ hm))
    simp [cut, hc, this]

theorem cut_append (sep : Byte) (s t : GoString) (h : sep ∉ s) :
    cut sep (s ++ sep :: t) = (s, some t) := by
  induction s with
  | nil => simp [cut]
  | cons c s ih =>
    have hc : c ≠ sep := fun e => h (e ▸ List.mem_cons_self _ _)
    have := ih (fun hm => h (List.mem_cons_of_mem _ hm))
    simp [cut, hc, this]

theorem getSchemeLoop_letters (raw pre rest : GoString) :
    ∀ acc : GoString, (∀ c ∈ pre, isLetter c = true) → acc ++ pre ≠ [] →
      getSchemeLoop raw acc (pre ++ ch ':' :: rest) = some (acc.reverse ++ pre, rest) := by
  induction pre with
  | nil =>
    intro acc _ hne
    have h1 : isLetter (ch ':') = false := by decide
    have h2 : ¬ (isDigit (ch ':') = true ∨ ch ':' = ch '+' ∨ ch ':' = ch '-' ∨ ch ':' = ch '.') := by
      decide
    have h3 : acc ≠ [] := by simpa using hne
    simp [getSchemeLoop, h1, h2, h3]
  | cons c pre ih =>
    intro acc hl _
    have hc : isLetter c = true := hl c (List.mem_cons_self _ _)
    have := ih (c :: acc) (fun d hd => hl d (List.mem_cons_of_mem _ hd)) (by simp)
    simp [getSchemeLoop, hc, this]

theorem plainByte_ne (c : Byte) (h : plainByte c = true) :
    c ≠ ch '#' ∧ c ≠ ch '?' ∧ (c.val < 0x20 || c.val = 0x7f) = false := by
  simp only [plainByte, Bool.and_eq_true, Bool.not_eq_true', bne_iff_ne] at h
  exact ⟨h.1.2, h.2, h.1.1⟩

theorem getLast?_append_cons_ne (R q : GoString) (c : Byte) (hq : q ≠ []) (hc : c ∉ q) :
    (R ++ c :: q).getLast? ≠ some c := by
  intro h
  have h1 : (R ++ c :: q).getLast? = q.getLast? := by
    have e : R ++ c :: q = (R ++ [c]) ++ q := by simp
    rw [e, List.getLast?_append]
    cases hl : q.getLast? with
    | none => exact absurd (List.getLast?_eq_none_iff.mp hl) hq
    | some x => rfl
  rw [h1] at h
  exact hc (List.mem_of_getLast?_eq_some h)

theorem ctl_false_iff (s : GoString) :
    stringContainsCTLByte s = false ↔ ∀ c ∈ s, (c.val < 0x20 || c.val = 0x7f) = false := by
  simp only [stringContainsCTLByte, List.any_eq_false]
  constructor
  · intro h c hc; simpa using h c hc
  · intro h c hc; simpa using h c hc

set_option maxRecDepth 100000 in
theorem parseNoFragment_query (R q : GoString) (u : Bool → GoString → URL)
    (hctl : stringContainsCTLByte (str "https:" ++ R) = false)
    (hq? : ch '?' ∉ R)
    (hafter : ∀ fq rq, parseAfterQuery (str "https") R fq rq = some (u fq rq))
    (hq : ∀ c ∈ q, plainByte c = true) :
    parseNoFragment (str "https:" ++ R ++ ch '?' :: q) = some (u (decide (q = [])) q) := by
  have hshape : str "https:" ++ R ++ ch '?' :: q
      = str "https" ++ ch ':' :: (R ++ ch '?' :: q) := by
    have : str "https:" = str "https" ++ [ch ':'] := by decide
    rw [this]; simp
  have h1 : stringContainsCTLByte (str "https:" ++ R ++ ch '?' :: q) = false := by
    rw [ctl_false_iff] at hctl ⊢
    intro c hc
    rcases List.mem_append.mp hc with h | h
    · exact hctl c h
    · rcases List.mem_cons.mp h with h | h
      · subst h; decide
      · exact (plainByte_ne c (hq c h)).2.2
  have h2 : str "https:" ++ R ++ ch '?' :: q ≠ str "*" := by
    intro h
    have := congrArg List.length h
    have e1 : (str "https:").length = 6 := by decide
    have e2 : (str "*").length = 1 := by decide
    simp only [List.length_append, List.length_cons, e1, e2] at this
    omega
  have h3 : getScheme (str "https:" ++ R ++ ch '?' :: q) = some (str "https", R ++ ch '?' :: q) := by
    unfold getScheme
    have := getSchemeLoop_letters (str "https" ++ ch ':' :: (R ++ ch '?' :: q)) (str "https")
      (R ++ ch '?' :: q) [] (by decide) (by decide)
    rw [hshape]
    simpa using this
  have h4 : toLower (str "https") = str "https" := by decide
  unfold parseNoFragment
  rw [h1, if_neg (by simp), if_neg h2, h3]
  simp only [h4]
  by_cases hqe : q = []
  · subst hqe
    have hlast : (R ++ [ch '?']).getLast? = some (ch '?') := by simp
    have hcount : (R ++ [ch '?']).count (ch '?') = 1 := by
      simp [List.count_append, List.count_eq_zero_of_not_mem hq?]
    rw [if_pos ⟨hlast, hcount⟩]
    simp [hafter]
  · have hnm : ch '?' ∉ q := fun hm => (plainByte_ne _ (hq _ hm)).2.1 rfl
    have hlast : (R ++ ch '?' :: q).getLast? ≠ some (ch '?') :=
      getLast?_append_cons_ne R q (ch '?') hqe hnm
    rw [if_neg (fun h => hlast h.1), cut_append (ch '?') R q hq?]
    simp [hafter, hqe]

theorem urlParse_query (R q : GoString) (u : Bool → GoString → URL)
    (hctl : stringContainsCTLByte (str "https:" ++ R) = false)
    (hhash : ch '#' ∉ str "https:" ++ R)
    (hq? : ch '?' ∉ R)
    (hafter : ∀ fq rq, parseAfterQuery (str "https") R fq rq = some (u fq rq))
    (hq : ∀ c ∈ q, plainByte c = true) :
    urlParse (str "https:" ++ R ++ ch '?' :: q) = some (u (decide (q = [])) q) := by
  have hnm : ch '#' ∉ str "https:" ++ R ++ ch '?' :: q := by
    intro hm
    rcases List.mem_append.mp hm with h | h
    · exact hhash h
    · rcases List.mem_cons.mp h with h | h
      · exact absurd h (by decide)
      · exact (plainByte_ne _ (hq _ h)).1 rfl
  unfold urlParse
  rw [cut_not_mem _ _ hnm]
  simp only [parseNoFragment_query R q u hctl hq? hafter hq]

set_option maxRecDepth 100000 in
theorem parseAfterQuery_endpoint (e : String) (he : isEndpoint e) (fq : Bool) (rq : GoString) :
    parseAfterQuery (str "https") (str "//newsapi.org/v2/" ++ str e) fq rq
      = some { Scheme := str "https", Host := str "newsapi.org", Path := str "/v2/" ++ str e,
               ForceQuery := fq, RawQuery := rq } := by
  rcases he with h | h | h <;> subst h
  all_goals
    unfold parseAfterQuery
    rw [if_neg (by decide), if_neg (by decide), if_pos (by decide)]
    simp only []
    rw [show parseAuthority _ = some (none, str "newsapi.org") from by decide]
    simp only []
    rw [if_pos (by decide)]
    congr 2

set_option maxRecDepth 100000 in
theorem endpoint_facts (e : String) (he : isEndpoint e) :
    endpointBase e = str "https:" ++ (str "//newsapi.org/v2/" ++ str e) ++ [ch '?']
    ∧ stringContainsCTLByte (str "https:" ++ (str "//newsapi.org/v2/" ++ str e)) = false
    ∧ ch '#' ∉ str "https:" ++ (str "//newsapi.org/v2/" ++ str e)
    ∧ ch '?' ∉ (str "//newsapi.org/v2/" ++ str e) := by
  rcases he with h | h | h <;> subst h <;> decide

set_option maxRecDepth 100000 in
theorem urlParse_endpoint (e : String) (he : isEndpoint e) (args : List GoString) :
    urlParse (buildURL (endpointBase e) args)
      = some { Scheme := str "https", Host := str "newsapi.org",
               Path := str "/v2/" ++ str e,
               ForceQuery := decide (PathEscape (ampJoined args) = []),
               RawQuery := PathEscape (ampJoined args) } := by
  obtain ⟨hB, hctl, hhash, hq⟩ := endpoint_facts e he
  have hurl : buildURL (endpointBase e) args
      = str "https:" ++ (str "//newsapi.org/v2/" ++ str e) ++ ch '?' :: PathEscape (ampJoined args) := by
    simp only [buildURL, hB, joinParams_eq]
    simp
  rw [hurl]
  exact urlParse_query (str "//newsapi.org/v2/" ++ str e) (PathEscape (ampJoined args))
    (fun fq rq => { Scheme := str "https", Host := str "newsapi.org", Path := str "/v2/" ++ str e,
                    ForceQuery := fq, RawQuery := rq })
    hctl hhash hq (parseAfterQuery_endpoint e he) (plainByte_escape _)

set_option maxRecDepth 100000 in
theorem NewRequest_endpoint (e : String) (he : isEndpoint e) (args : List GoString) :
    NewRequest (str "GET") (buildURL (endpointBase e) args)
      = some { Method := str "GET"
               URL := { Scheme := str "https", Host := str "newsapi.org",
                        Path := str "/v2/" ++ str e,
                        ForceQuery := decide (PathEscape (ampJoined args) = []),
                        RawQuery := PathEscape (ampJoined args) }
               Header := [] } := by
  have hm1 : (str "GET" = ([] : GoString)) = False := by decide
  have hm2 : validMethod (str "GET") = true := by decide
  have hh : removeEmptyPort (str "newsapi.org") = str "newsapi.org" := by decide
  unfold NewRequest
  simp only [hm1, if_false, hm2, Bool.not_true, urlParse_endpoint e he args, hh]
  simp

theorem issued_eq (e : String) (k : GoString) (args : List GoString) :
    Request.setHeader
      { Method := str "GET"
        URL := { Scheme := str "https", Host := str "newsapi.org",
                 Path := str "/v2/" ++ str e,
                 ForceQuery := decide (PathEscape (ampJoined args) = []),
                 RawQuery := PathEscape (ampJoined args) }
        Header := [] } (str "Authorization") k = issued e k args := by
  simp [Request.setHeader, issued]

theorem GetTopHeadlines_eq (apiKey : Client → GoString) (L : TimeLib) (cli : Client) (net : Request → RoundTrip)
    (args : List GoString) :
    GetTopHeadlines apiKey L cli net args
      = respondNews L (net (issued "top-headlines" (apiKey cli) args)) := by
  unfold GetTopHeadlines
  simp only [NewRequest_endpoint "top-headlines" (Or.inl rfl) args, issued_eq]
  cases net (issued "top-headlines" (apiKey cli) args) <;> rfl

theorem GetEverything_eq (apiKey : Client → GoString) (L : TimeLib) (cli : Client) (net : Request → RoundTrip)
    (args : List GoString) :
    GetEverything apiKey L cli net args
      = respondNews L (net (issued "everything" (apiKey cli) args)) := by
  unfold GetEverything
  simp only [NewRequest_endpoint "everything" (Or.inr (Or.inl rfl)) args, issued_eq]
  cases net (issued "everything" (apiKey cli) args) <;> rfl

theorem GetSources_eq (apiKey : Client → GoString) (nr : Option SourcesResponse)
    (cli : Client) (net : Request → RoundTrip)
    (args : List GoString) :
    GetSources apiKey nr cli net args
      = respondSources nr (net (issued "sources" (apiKey cli) args)) := by
  unfold GetSources
  simp only [NewRequest_endpoint "sources" (Or.inr (Or.inr rfl)) args, issued_eq]
  cases net (issued "sources" (apiKey cli) args) <;> rfl

/-! ## Lemmas on decoding -/

theorem membersNamed_cons (k : GoString) (v : JValue) (rest : List (GoString × JValue))
    (name : String) :
    membersNamed ((k, v) :: rest) name
      = if isField k name then v :: membersNamed rest name else membersNamed rest name := by
  unfold membersNamed
  by_cases h : isField k name = true
  · simp [List.filter_cons, h]
  · simp [List.filter_cons, h]

theorem decodeMembers_proj {σ τ : Type} (setField : GoString → JValue → σ → Option σ)
    (name : String) (get : σ → τ) (dec : JValue → τ → Option τ)
    (hin : ∀ k v s s1, setField k v s = some s1 → isField k name = true →
      dec v (get s) = some (get s1))
    (hout : ∀ k v s s1, setField k v s = some s1 → isField k name = false → get s1 = get s) :
    ∀ (members : List (GoString × JValue)) (s s1 : σ),
      decodeMembers setField members s = some s1 →
      decodeVals dec (membersNamed members name) (get s) = some (get s1) := by
  intro members
  induction members with
  | nil =>
    intro s s1 h
    simp only [decodeMembers, Option.some.injEq] at h
    subst h
    rfl
  | cons kv rest ih =>
    obtain ⟨k, v⟩ := kv
    intro s s1 h
    rw [decodeMembers] at h
    cases hs : setField k v s with
    | none => rw [hs] at h; exact absurd h (by simp)
    | some s2 =>
      rw [hs] at h
      have hrest := ih s2 s1 h
      rw [membersNamed_cons]
      by_cases hk : isField k name = true
      · rw [if_pos hk, decodeVals, hin k v s s2 hs hk]
        exact hrest
      · have hk2 : isField k name = false := by simpa using hk
        rw [if_neg hk, ← hout k v s s2 hs hk2]
        exact hrest

theorem decodeMembers_isSome {σ : Type} (setField : GoString → JValue → σ → Option σ)
    (members : List (GoString × JValue))
    (h : ∀ kv ∈ members, ∀ s, (setField kv.1 kv.2 s).isSome = true) :
    ∀ s, (decodeMembers setField members s).isSome = true := by
  induction members with
  | nil => intro s; rfl
  | cons kv rest ih =>
    obtain ⟨k, v⟩ := kv
    intro s
    rw [decodeMembers]
    have hk := h (k, v) (List.mem_cons_self _ _) s
    cases hs : setField k v s with
    | none => rw [hs] at hk; exact absurd hk (by simp)
    | some s2 => exact ih (fun kv hkv => h kv (List.mem_cons_of_mem _ hkv)) s2

theorem mem_membersNamed (members : List (GoString × JValue)) (name : String)
    (k : GoString) (v : JValue) (hm : (k, v) ∈ members) (hk : isField k name = true) :
    v ∈ membersNamed members name := by
  unfold membersNamed
  exact List.mem_map.mpr ⟨(k, v), List.mem_filter.mpr ⟨hm, hk⟩, rfl⟩

theorem theMember_eq (members : List (GoString × JValue)) (name : String) (v : JValue)
    (h : theMember members name = some v) : membersNamed members name = [v] := by
  unfold theMember at h
  split at h
  · rename_i w hw; simp only [Option.some.injEq] at h; subst h; exact hw
  · exact absurd h (by simp)

theorem stringMember_eq (members : List (GoString × JValue)) (name : String) (x : GoString)
    (h : stringMember members name = some x) : membersNamed members name = [.str x] := by
  unfold stringMember at h
  split at h
  · rename_i s hs
    simp only [Option.some.injEq] at h
    subst h
    exact theMember_eq members name _ hs
  · exact absurd h (by simp)

theorem isField_excl (k : GoString) (n1 n2 : String)
    (h : foldName (str n1) ≠ foldName (str n2)) (hk : isField k n1 = true) :
    isField k n2 = false := by
  simp only [isField, decide_eq_true_eq, decide_eq_false_iff_not] at hk ⊢
  rw [hk]; exact h

/-- A string member decodes into a string field whatever the field holds. -/
theorem decodeString_of_mem (members : List (GoString × JValue)) (name : String) (x : GoString)
    (h : stringMember members name = some x) (k : GoString) (v : JValue)
    (hm : (k, v) ∈ members) (hk : isField k name = true) (cur : GoString) :
    decodeString v cur = some x := by
  have := mem_membersNamed members name k v hm hk
  rw [stringMember_eq members name x h] at this
  simp only [List.mem_singleton] at this
  subst this
  rfl

set_option maxRecDepth 100000 in
theorem Error_status_in (k : GoString) (v : JValue) (s s1 : Error)
    (h : Error.setField k v s = some s1) (hk : isField k "status" = true) :
    decodeString v s.Status = some s1.Status := by
  simp only [Error.setField, hk, if_true, Bool.false_eq_true, if_false] at h
  obtain ⟨x, hx, rfl⟩ := Option.map_eq_some'.mp h
  exact hx

theorem Error_status_out (k : GoString) (v : JValue) (s s1 : Error)
    (h : Error.setField k v s = some s1) (hk : isField k "status" = false) :
    s1.Status = s.Status := by
  simp only [Error.setField, hk, Bool.false_eq_true, if_false] at h
  split_ifs at h
  all_goals first
    | (obtain ⟨x, _, rfl⟩ := Option.map_eq_some'.mp h; rfl)
    | (cases h; rfl)

set_option maxRecDepth 100000 in
theorem Error_code_in (k : GoString) (v : JValue) (s s1 : Error)
    (h : Error.setField k v s = some s1) (hk : isField k "code" = true) :
    decodeString v s.Code = some s1.Code := by
  have e0 := isField_excl k "code" "status" (by decide) hk
  simp only [Error.setField, e0, hk, if_true, Bool.false_eq_true, if_false] at h
  obtain ⟨x, hx, rfl⟩ := Option.map_eq_some'.mp h
  exact hx

theorem Error_code_out (k : GoString) (v : JValue) (s s1 : Error)
    (h : Error.setField k v s = some s1) (hk : isField k "code" = false) :
    s1.Code = s.Code := by
  simp only [Error.setField, hk, Bool.false_eq_true, if_false] at h
  split_ifs at h
  all_goals first
    | (obtain ⟨x, _, rfl⟩ := Option.map_eq_some'.mp h; rfl)
    | (cases h; rfl)

set_option maxRecDepth 100000 in
theorem Error_message_in (k : GoString) (v : JValue) (s s1 : Error)
    (h : Error.setField k v s = some s1) (hk : isField k "message" = true) :
    decodeString v s.Message = some s1.Message := by
  have e0 := isField_excl k "message" "status" (by decide) hk
  have e1 := isField_excl k "message" "code" (by decide) hk
  simp only [Error.setField, e0, e1, hk, if_true, Bool.false_eq_true, if_false] at h
  obtain ⟨x, hx, rfl⟩ := Option.map_eq_some'.mp h
  exact hx

theorem Error_message_out (k : GoString) (v : JValue) (s s1 : Error)
    (h : Error.setField k v s = some s1) (hk : isField k "message" = false) :
    s1.Message = s.Message := by
  simp only [Error.setField, hk, Bool.false_eq_true, if_false] at h
  split_ifs at h
  all_goals first
    | (obtain ⟨x, _, rfl⟩ := Option.map_eq_some'.mp h; rfl)
    | (cases h; rfl)

set_option maxRecDepth 100000 in
theorem ArticleSource_id_in (k : GoString) (v : JValue) (s s1 : ArticleSource)
    (h : ArticleSource.setField k v s = some s1) (hk : isField k "id" = true) :
    decodeString v s.ID = some s1.ID := by
  simp only [ArticleSource.setField, hk, if_true, Bool.false_eq_true, if_false] at h
  obtain ⟨x, hx, rfl⟩ := Option.map_eq_some'.mp h
  exact hx

theorem ArticleSource_id_out (k : GoString) (v : JValue) (s s1 : ArticleSource)
    (h : ArticleSource.setField k v s = some s1) (hk : isField k "id" = false) :
    s1.ID = s.ID := by
  simp only [ArticleSource.setField, hk, Bool.false_eq_true, if_false] at h
  split_ifs at h
  all_goals first
    | (obtain ⟨x, _, rfl⟩ := Option.map_eq_some'.mp h; rfl)
    | (cases h; rfl)

set_option maxRecDepth 100000 in
theorem ArticleSource_name_in (k : GoString) (v : JValue) (s s1 : ArticleSource)
    (h : ArticleSource.setField k v s = some s1) (hk : isField k "name" = true) :
    decodeString v s.Name = some s1.Name := by
  have e0 := isField_excl k "name" "id" (by decide) hk
  simp only [ArticleSource.setField, e0, hk, if_true, Bool.false_eq_true, if_false] at h
  obtain ⟨x, hx, rfl⟩ := Option.map_eq_some'.mp h
  exact hx

theorem ArticleSource_name_out (k : GoString) (v : JValue) (s s1 : ArticleSource)
    (h : ArticleSource.setField k v s = some s1) (hk : isField k "name" = false) :
    s1.Name = s.Name := by
  simp only [ArticleSource.setField, hk, Bool.false_eq_true, if_false] at h
  split_ifs at h
  all_goals first
    | (obtain ⟨x, _, rfl⟩ := Option.map_eq_some'.mp h; rfl)
    | (cases h; rfl)

set_option maxRecDepth 100000 in
theorem Article_source_in (L : TimeLib) (k : GoString) (v : JValue) (s s1 : Article L.Time)
    (h : Article.setField L k v s = some s1) (hk : isField k "source" = true) :
    (decodeStruct ArticleSource.setField) v s.Source = some s1.Source := by
  simp only [Article.setField, hk, if_true, Bool.false_eq_true, if_false] at h
  obtain ⟨x, hx, rfl⟩ := Option.map_eq_some'.mp h
  exact hx

theorem Article_source_out (L : TimeLib) (k : GoString) (v : JValue) (s s1 : Article L.Time)
    (h : Article.setField L k v s = some s1) (hk : isField k "source" = false) :
    s1.Source = s.Source := by
  simp only [Article.setField, hk, Bool.false_eq_true, if_false] at h
  split_ifs at h
  all_goals first
    | (obtain ⟨x, _, rfl⟩ := Option.map_eq_some'.mp h; rfl)
    | (cases h; rfl)

set_option maxRecDepth 100000 in
theorem Article_author_in (L : TimeLib) (k : GoString) (v : JValue) (s s1 : Article L.Time)
    (h : Article.setField L k v s = some s1) (hk : isField k "author" = true) :
    decodeString v s.Author = some s1.Author := by
  have e0 := isField_excl k "author" "source" (by decide) hk
  simp only [Article.setField, e0, hk, if_true, Bool.false_eq_true, if_false] at h
  obtain ⟨x, hx, rfl⟩ := Option.map_eq_some'.mp h
  exact hx

theorem Article_author_out (L : TimeLib) (k : GoString) (v : JValue) (s s1 : Article L.Time)
    (h : Article.setField L k v s = some s1) (hk : isField k "author" = false) :
    s1.Author = s.Author := by
  simp only [Article.setField, hk, Bool.false_eq_true, if_false] at h
  split_ifs at h
  all_goals first
    | (obtain ⟨x, _, rfl⟩ := Option.map_eq_some'.mp h; rfl)
    | (cases h; rfl)

set_option maxRecDepth 100000 in
theorem Article_title_in (L : TimeLib) (k : GoString) (v : JValue) (s s1 : Article L.Time)
    (h : Article.setField L k v s = some s1) (hk : isField k "title" = true) :
    decodeString v s.Title = some s1.Title := by
  have e0 := isField_excl k "title" "source" (by decide) hk
  have e1 := isField_excl k "title" "author" (by decide) hk
  simp only [Article.setField, e0, e1, hk, if_true, Bool.false_eq_true, if_false] at h
  obtain ⟨x, hx, rfl⟩ := Option.map_eq_some'.mp h
  exact hx

theorem Article_title_out (L : TimeLib) (k : GoString) (v : JValue) (s s1 : Article L.Time)
    (h : Article.setField L k v s = some s1) (hk : isField k "title" = false) :
    s1.Title = s.Title := by
  simp only [Article.setField, hk, Bool.false_eq_true, if_false] at h
  split_ifs at h
  all_goals first
    | (obtain ⟨x, _, rfl⟩ := Option.map_eq_some'.mp h; rfl)
    | (cases h; rfl)

set_option maxRecDepth 100000 in
theorem Article_description_in (L : TimeLib) (k : GoString) (v : JValue) (s s1 : Article L.Time)
    (h : Article.setField L k v s = some s1) (hk : isField k "description" = true) :
    decodeString v s.Description = some s1.Description := by
  have e0 := isField_excl k "description" "source" (by decide) hk
  have e1 := isField_excl k "description" "author" (by decide) hk
  have e2 := isField_excl k "description" "title" (by decide) hk
  simp only [Article.setField, e0, e1, e2, hk, if_true, Bool.false_eq_true, if_false] at h
  obtain ⟨x, hx, rfl⟩ := Option.map_eq_some'.mp h
  exact hx

theorem Article_description_out (L : TimeLib) (k : GoString) (v : JValue) (s s1 : Article L.Time)
    (h : Article.setField L k v s = some s1) (hk : isField k "description" = false) :
    s1.Description = s.Description := by
  simp only [Article.setField, hk, Bool.false_eq_true, if_false] at h
  split_ifs at h
  all_goals first
    | (obtain ⟨x, _, rfl⟩ := Option.map_eq_some'.mp h; rfl)
    | (cases h; rfl)

set_option maxRecDepth 100000 in
theorem Article_url_in (L : TimeLib) (k : GoString) (v : JValue) (s s1 : Article L.Time)
    (h : Article.setField L k v s = some s1) (hk : isField k "url" = true) :
    decodeString v s.URL = some s1.URL := by
  have e0 := isField_excl k "url" "source" (by decide) hk
  have e1 := isField_excl k "url" "author" (by decide) hk
  have e2 := isField_excl k "url" "title" (by decide) hk
  have e3 := isField_excl k "url" "description" (by decide) hk
  simp only [Article.setField, e0, e1, e2, e3, hk, if_true, Bool.false_eq_true, if_false] at h
  obtain ⟨x, hx, rfl⟩ := Option.map_eq_some'.mp h
  exact hx

theorem Article_url_out (L : TimeLib) (k : GoString) (v : JValue) (s s1 : Article L.Time)
    (h : Article.setField L k v s = some s1) (hk : isField k "url" = false) :
    s1.URL = s.URL := by
  simp only [Article.setField, hk, Bool.false_eq_true, if_false] at h
  split_ifs at h
  all_goals first
    | (obtain ⟨x, _, rfl⟩ := Option.map_eq_some'.mp h; rfl)
    | (cases h; rfl)

set_option maxRecDepth 100000 in
theorem Article_urlToImage_in (L : TimeLib) (k : GoString) (v : JValue) (s s1 : Article L.Time)
    (h : Article.setField L k v s = some s1) (hk : isField k "urlToImage" = true) :
    decodeString v s.URLToImage = some s1.URLToImage := by
  have e0 := isField_excl k "urlToImage" "source" (by decide) hk
  have e1 := isField_excl k "urlToImage" "author" (by decide) hk
  have e2 := isField_excl k "urlToImage" "title" (by decide) hk
  have e3 := isField_excl k "urlToImage" "description" (by decide) hk
  have e4 := isField_excl k "urlToImage" "url" (by decide) hk
  simp only [Article.setField, e0, e1, e2, e3, e4, hk, if_true, Bool.false_eq_true, if_false] at h
  obtain ⟨x, hx, rfl⟩ := Option.map_eq_some'.mp h
  exact hx

theorem Article_urlToImage_out (L : TimeLib) (k : GoString) (v : JValue) (s s1 : Article L.Time)
    (h : Article.setField L k v s = some s1) (hk : isField k "urlToImage" = false) :
    s1.URLToImage = s.URLToImage := by
  simp only [Article.setField, hk, Bool.false_eq_true, if_false] at h
  split_ifs at h
  all_goals first
    | (obtain ⟨x, _, rfl⟩ := Option.map_eq_some'.mp h; rfl)
    | (cases h; rfl)

set_option maxRecDepth 100000 in
theorem Article_publishedAt_in (L : TimeLib) (k : GoString) (v : JValue) (s s1 : Article L.Time)
    (h : Article.setField L k v s = some s1) (hk : isField k "publishedAt" = true) :
    (decodeTime L) v s.PublishedAt = some s1.PublishedAt := by
  have e0 := isField_excl k "publishedAt" "source" (by decide) hk
  have e1 := isField_excl k "publishedAt" "author" (by decide) hk
  have e2 := isField_excl k "publishedAt" "title" (by decide) hk
  have e3 := isField_excl k "publishedAt" "description" (by decide) hk
  have e4 := isField_excl k "publishedAt" "url" (by decide) hk
  have e5 := isField_excl k "publishedAt" "urlToImage" (by decide) hk
  simp only [Article.setField, e0, e1, e2, e3, e4, e5, hk, if_true, Bool.false_eq_true, if_false] at h
  obtain ⟨x, hx, rfl⟩ := Option.map_eq_some'.mp h
  exact hx

theorem Article_publishedAt_out (L : TimeLib) (k : GoString) (v : JValue) (s s1 : Article L.Time)
    (h : Article.setField L k v s = some s1) (hk : isField k "publishedAt" = false) :
    s1.PublishedAt = s.PublishedAt := by
  simp only [Article.setField, hk, Bool.false_eq_true, if_false] at h
  split_ifs at h
  all_goals first
    | (obtain ⟨x, _, rfl⟩ := Option.map_eq_some'.mp h; rfl)
    | (cases h; rfl)

set_option maxRecDepth 100000 in
theorem NewsResponse_status_in (L : TimeLib) (k : GoString) (v : JValue) (s s1 : NewsResponse L.Time)
    (h : NewsResponse.setField L k v s = some s1) (hk : isField k "status" = true) :
    decodeString v s.Status = some s1.Status := by
  simp only [NewsResponse.setField, hk, if_true, Bool.false_eq_true, if_false] at h
  obtain ⟨x, hx, rfl⟩ := Option.map_eq_some'.mp h
  exact hx

theorem NewsResponse_status_out (L : TimeLib) (k : GoString) (v : JValue) (s s1 : NewsResponse L.Time)
    (h : NewsResponse.setField L k v s = some s1) (hk : isField k "status" = false) :
    s1.Status = s.Status := by
  simp only [NewsResponse.setField, hk, Bool.false_eq_true, if_false] at h
  split_ifs at h
  all_goals first
    | (obtain ⟨x, _, rfl⟩ := Option.map_eq_some'.mp h; rfl)
    | (cases h; rfl)

set_option maxRecDepth 100000 in
theorem NewsResponse_totalResults_in (L : TimeLib) (k : GoString) (v : JValue) (s s1 : NewsResponse L.Time)
    (h : NewsResponse.setField L k v s = some s1) (hk : isField k "totalResults" = true) :
    decodeInt v s.TotalResults = some s1.TotalResults := by
  have e0 := isField_excl k "totalResults" "status" (by decide) hk
  simp only [NewsResponse.setField, e0, hk, if_true, Bool.false_eq_true, if_false] at h
  obtain ⟨x, hx, rfl⟩ := Option.map_eq_some'.mp h
  exact hx

theorem NewsResponse_totalResults_out (L : TimeLib) (k : GoString) (v : JValue) (s s1 : NewsResponse L.Time)
    (h : NewsResponse.setField L k v s = some s1) (hk : isField k "totalResults" = false) :
    s1.TotalResults = s.TotalResults := by
  simp only [NewsResponse.setField, hk, Bool.false_eq_true, if_false] at h
  split_ifs at h
  all_goals first
    | (obtain ⟨x, _, rfl⟩ := Option.map_eq_some'.mp h; rfl)
    | (cases h; rfl)

set_option maxRecDepth 100000 in
theorem NewsResponse_articles_in (L : TimeLib) (k : GoString) (v : JValue) (s s1 : NewsResponse L.Time)
    (h : NewsResponse.setField L k v s = some s1) (hk : isField k "articles" = true) :
    (decodeSlice (decodeStruct (Article.setField L)) (Article.zero L)) v
        (s.Articles, s.ArticlesSpare) = some (s1.Articles, s1.ArticlesSpare) := by
  have e0 := isField_excl k "articles" "status" (by decide) hk
  have e1 := isField_excl k "articles" "totalResults" (by decide) hk
  simp only [NewsResponse.setField, e0, e1, hk, if_true, Bool.false_eq_true, if_false] at h
  obtain ⟨x, hx, rfl⟩ := Option.map_eq_some'.mp h
  exact hx

theorem NewsResponse_articles_out (L : TimeLib) (k : GoString) (v : JValue) (s s1 : NewsResponse L.Time)
    (h : NewsResponse.setField L k v s = some s1) (hk : isField k "articles" = false) :
    (s1.Articles, s1.ArticlesSpare) = (s.Articles, s.ArticlesSpare) := by
  simp only [NewsResponse.setField, hk, Bool.false_eq_true, if_false] at h
  split_ifs at h
  all_goals first
    | (obtain ⟨x, _, rfl⟩ := Option.map_eq_some'.mp h; rfl)
    | (cases h; rfl)

set_option maxRecDepth 100000 in
theorem SourcesResponse_status_in (k : GoString) (v : JValue) (s s1 : SourcesResponse)
    (h : SourcesResponse.setField k v s = some s1) (hk : isField k "status" = true) :
    decodeString v s.Status = some s1.Status := by
  simp only [SourcesResponse.setField, hk, if_true, Bool.false_eq_true, if_false] at h
  obtain ⟨x, hx, rfl⟩ := Option.map_eq_some'.mp h
  exact hx

theorem SourcesResponse_status_out (k : GoString) (v : JValue) (s s1 : SourcesResponse)
    (h : SourcesResponse.setField k v s = some s1) (hk : isField k "status" = false) :
    s1.Status = s.Status := by
  simp only [SourcesResponse.setField, hk, Bool.false_eq_true, if_false] at h
  split_ifs at h
  all_goals first
    | (obtain ⟨x, _, rfl⟩ := Option.map_eq_some'.mp h; rfl)
    | (cases h; rfl)

set_option maxRecDepth 100000 in
theorem SourcesResponse_sources_in (k : GoString) (v : JValue) (s s1 : SourcesResponse)
    (h : SourcesResponse.setField k v s = some s1) (hk : isField k "sources" = true) :
    (decodeSlice (decodeStruct Source.setField) {}) v
        (s.Sources, s.SourcesSpare) = some (s1.Sources, s1.SourcesSpare) := by
  have e0 := isField_excl k "sources" "status" (by decide) hk
  simp only [SourcesResponse.setField, e0, hk, if_true, Bool.false_eq_true, if_false] at h
  obtain ⟨x, hx, rfl⟩ := Option.map_eq_some'.mp h
  exact hx

theorem SourcesResponse_sources_out (k : GoString) (v : JValue) (s s1 : SourcesResponse)
    (h : SourcesResponse.setField k v s = some s1) (hk : isField k "sources" = false) :
    (s1.Sources, s1.SourcesSpare) = (s.Sources, s.SourcesSpare) := by
  simp only [SourcesResponse.setField, hk, Bool.false_eq_true, if_false] at h
  split_ifs at h
  all_goals first
    | (obtain ⟨x, _, rfl⟩ := Option.map_eq_some'.mp h; rfl)
    | (cases h; rfl)

theorem decodeVals_string_single (x cur y : GoString)
    (h : decodeVals decodeString [.str x] cur = some y) : y = x := by
  simp only [decodeVals, decodeString, Option.some.injEq] at h
  exact h.symm

/-- An object with exactly one string member for each of `status`, `code` and
`message` decodes into the `Error` holding these three strings. -/
theorem Unmarshal_Error_of_members (members : List (GoString × JValue)) (st c m : GoString)
    (hs : stringMember members "status" = some st)
    (hc : stringMember members "code" = some c)
    (hm : stringMember members "message" = some m) :
    Unmarshal Error.setField (some (.obj members)) {}
      = some { Status := st, Code := c, Message := m } := by
  have hok : ∀ kv ∈ members, ∀ s, (Error.setField kv.1 kv.2 s).isSome = true := by
    intro kv hkv s
    obtain ⟨k, v⟩ := kv
    unfold Error.setField
    split_ifs with h1 h2 h3
    · simp [decodeString_of_mem members "status" st hs k v hkv h1]
    · simp [decodeString_of_mem members "code" c hc k v hkv h2]
    · simp [decodeString_of_mem members "message" m hm k v hkv h3]
    · rfl
  have hsome := decodeMembers_isSome Error.setField members hok {}
  obtain ⟨e, he⟩ := Option.isSome_iff_exists.mp hsome
  have p1 := decodeMembers_proj Error.setField "status" Error.Status decodeString
    Error_status_in Error_status_out members {} e he
  have p2 := decodeMembers_proj Error.setField "code" Error.Code decodeString
    Error_code_in Error_code_out members {} e he
  have p3 := decodeMembers_proj Error.setField "message" Error.Message decodeString
    Error_message_in Error_message_out members {} e he
  rw [stringMember_eq members _ _ hs] at p1
  rw [stringMember_eq members _ _ hc] at p2
  rw [stringMember_eq members _ _ hm] at p3
  have q1 := decodeVals_string_single _ _ _ p1
  have q2 := decodeVals_string_single _ _ _ p2
  have q3 := decodeVals_string_single _ _ _ p3
  simp only [Unmarshal, decodeStruct, he]
  cases e
  simp_all


theorem decodeVals_single {τ : Type} (dec : JValue → τ → Option τ) (v : JValue) (cur x y : τ)
    (h : decodeVals dec [v] cur = some y) (hv : dec v cur = some x) : y = x := by
  simp only [decodeVals, hv, Option.some.injEq] at h
  exact h.symm

theorem mem_theMember (members : List (GoString × JValue)) (name : String) (w : JValue)
    (h : theMember members name = some w) (k : GoString) (v : JValue)
    (hm : (k, v) ∈ members) (hk : isField k name = true) : v = w := by
  have := mem_membersNamed members name k v hm hk
  rw [theMember_eq members name w h] at this
  simpa using this

/-- An object the envelope reads as an article source decodes into that
source, whatever the field held before. -/
theorem decodeSource_of_envelope (v : JValue) (src cur : ArticleSource)
    (h : envelopeSource v = some src) :
    decodeStruct ArticleSource.setField v cur = some src := by
  cases v with
  | obj members =>
    simp only [envelopeSource] at h
    split at h
    · rename_i id name hid hname
      simp only [Option.some.injEq] at h
      have hok : ∀ kv ∈ members, ∀ s, (ArticleSource.setField kv.1 kv.2 s).isSome = true := by
        intro kv hkv s
        obtain ⟨k, w⟩ := kv
        unfold ArticleSource.setField
        split_ifs with h1 h2
        · simp [decodeString_of_mem members "id" id hid k w hkv h1]
        · simp [decodeString_of_mem members "name" name hname k w hkv h2]
        · rfl
      obtain ⟨e, he⟩ := Option.isSome_iff_exists.mp
        (decodeMembers_isSome ArticleSource.setField members hok cur)
      have p1 := decodeMembers_proj ArticleSource.setField "id" ArticleSource.ID decodeString
        ArticleSource_id_in ArticleSource_id_out members cur e he
      have p2 := decodeMembers_proj ArticleSource.setField "name" ArticleSource.Name decodeString
        ArticleSource_name_in ArticleSource_name_out members cur e he
      rw [stringMember_eq members _ _ hid] at p1
      rw [stringMember_eq members _ _ hname] at p2
      have q1 := decodeVals_single _ _ _ id _ p1 rfl
      have q2 := decodeVals_single _ _ _ name _ p2 rfl
      simp only [decodeStruct, he]
      subst h
      cases e
      simp_all
    · exact absurd h (by simp)
  | _ => simp [envelopeSource] at h

/-- An object the envelope reads as an article decodes into that article,
whatever the slice element held before. -/
theorem decodeArticle_of_envelope (L : TimeLib) (v : JValue) (a cur : Article L.Time)
    (h : envelopeArticle L v = some a) :
    decodeStruct (Article.setField L) v cur = some a := by
  cases v with
  | obj members =>
    simp only [envelopeArticle] at h
    split at h
    · rename_i source author title description url urlToImage publishedAt
        hsource hauthor htitle hdescription hurl hurlToImage hpublishedAt
      simp only [Option.some.injEq] at h
      obtain ⟨sv, hsv, hsrc⟩ := Option.bind_eq_some.mp hsource
      obtain ⟨ts, hts, hparse⟩ := Option.bind_eq_some.mp hpublishedAt
      have hok : ∀ kv ∈ members, ∀ s, (Article.setField L kv.1 kv.2 s).isSome = true := by
        intro kv hkv s
        obtain ⟨k, w⟩ := kv
        unfold Article.setField
        split_ifs with h1 h2 h3 h4 h5 h6 h7
        · have : w = sv := mem_theMember members "source" sv hsv k w hkv h1
          subst this
          simp [decodeSource_of_envelope w source s.Source hsrc]
        · simp [decodeString_of_mem members "author" author hauthor k w hkv h2]
        · simp [decodeString_of_mem members "title" title htitle k w hkv h3]
        · simp [decodeString_of_mem members "description" description hdescription k w hkv h4]
        · simp [decodeString_of_mem members "url" url hurl k w hkv h5]
        · simp [decodeString_of_mem members "urlToImage" urlToImage hurlToImage k w hkv h6]
        · have := mem_membersNamed members "publishedAt" k w hkv h7
          rw [stringMember_eq members _ _ hts] at this
          simp only [List.mem_singleton] at this
          subst this
          simp [decodeTime, hparse]
        · rfl
      obtain ⟨e, he⟩ := Option.isSome_iff_exists.mp
        (decodeMembers_isSome (Article.setField L) members hok cur)
      have p1 := decodeMembers_proj (Article.setField L) "source" Article.Source
        (decodeStruct ArticleSource.setField)
        (Article_source_in L) (Article_source_out L) members cur e he
      have p2 := decodeMembers_proj (Article.setField L) "author" Article.Author decodeString
        (Article_author_in L) (Article_author_out L) members cur e he
      have p3 := decodeMembers_proj (Article.setField L) "title" Article.Title decodeString
        (Article_title_in L) (Article_title_out L) members cur e he
      have p4 := decodeMembers_proj (Article.setField L) "description" Article.Description
        decodeString (Article_description_in L) (Article_description_out L) members cur e he
      have p5 := decodeMembers_proj (Article.setField L) "url" Article.URL decodeString
        (Article_url_in L) (Article_url_out L) members cur e he
      have p6 := decodeMembers_proj (Article.setField L) "urlToImage" Article.URLToImage
        decodeString (Article_urlToImage_in L) (Article_urlToImage_out L) members cur e he
      have p7 := decodeMembers_proj (Article.setField L) "publishedAt" Article.PublishedAt
        (decodeTime L) (Article_publishedAt_in L) (Article_publishedAt_out L) members cur e he
      rw [theMember_eq members _ _ hsv] at p1
      rw [stringMember_eq members _ _ hauthor] at p2
      rw [stringMember_eq members _ _ htitle] at p3
      rw [stringMember_eq members _ _ hdescription] at p4
      rw [stringMember_eq members _ _ hurl] at p5
      rw [stringMember_eq members _ _ hurlToImage] at p6
      rw [stringMember_eq members _ _ hts] at p7
      have q1 := decodeVals_single _ _ _ source _ p1 (decodeSource_of_envelope sv source _ hsrc)
      have q2 := decodeVals_single _ _ _ author _ p2 rfl
      have q3 := decodeVals_single _ _ _ title _ p3 rfl
      have q4 := decodeVals_single _ _ _ description _ p4 rfl
      have q5 := decodeVals_single _ _ _ url _ p5 rfl
      have q6 := decodeVals_single _ _ _ urlToImage _ p6 rfl
      have q7 := decodeVals_single _ _ _ publishedAt _ p7 (by simp [decodeTime, hparse])
      simp only [decodeStruct, he]
      subst h
      cases e
      simp_all
    · exact absurd h (by simp)
  | _ => simp [envelopeArticle] at h

/-- A list of objects the envelope reads as articles decodes into these
articles in the same order, whatever the slice held before. -/
theorem decodeElems_of_envelope (L : TimeLib) (elems : List JValue) :
    ∀ (arts cur : List (Article L.Time)), envelopeArticles L elems = some arts →
      decodeElems (decodeStruct (Article.setField L)) (Article.zero L) elems cur = some arts := by
  induction elems with
  | nil =>
    intro arts cur h
    simp only [envelopeArticles, Option.some.injEq] at h
    subst h
    rfl
  | cons x xs ih =>
    intro arts cur h
    simp only [envelopeArticles] at h
    split at h
    · rename_i a as ha has
      simp only [Option.some.injEq] at h
      subst h
      simp only [decodeElems, decodeArticle_of_envelope L x a _ ha, ih as cur.tail has]
    · exact absurd h (by simp)

/-- An array the envelope reads as articles decodes into the slice of these
articles with no written spare slot, whatever the slice held before. -/
theorem decodeSlice_of_envelope (L : TimeLib) (elems : List JValue)
    (arts : List (Article L.Time)) (h : envelopeArticles L elems = some arts) :
    decodeSlice (decodeStruct (Article.setField L)) (Article.zero L) (.arr elems) ([], [])
      = some (arts, []) := by
  cases elems with
  | nil =>
    simp only [envelopeArticles, Option.some.injEq] at h
    subst h
    rfl
  | cons x xs =>
    simp only [decodeSlice, decodeElems_of_envelope L (x :: xs) arts _ h]
    simp

theorem decodeSlice_isSome_of_envelope (L : TimeLib) (elems : List JValue)
    (arts : List (Article L.Time)) (h : envelopeArticles L elems = some arts)
    (cur : List (Article L.Time) × List (Article L.Time)) :
    (decodeSlice (decodeStruct (Article.setField L)) (Article.zero L) (.arr elems) cur).isSome
      = true := by
  cases elems with
  | nil => rfl
  | cons x xs =>
    simp only [decodeSlice, decodeElems_of_envelope L (x :: xs) arts _ h]
    simp

/-- A body the envelope reads as a news response decodes into that response. -/
theorem Unmarshal_News_of_envelope (L : TimeLib) (doc : JValue) (r : NewsResponse L.Time)
    (h : envelopeNews L doc = some r) :
    Unmarshal (NewsResponse.setField L) (some doc) {} = some r := by
  cases doc with
  | obj members =>
    simp only [envelopeNews] at h
    split at h
    · rename_i status lit elems hstatus htotal harticles
      split at h
      · rename_i total articles hint harts
        simp only [Option.some.injEq] at h
        have hok : ∀ kv ∈ members, ∀ s, (NewsResponse.setField L kv.1 kv.2 s).isSome = true := by
          intro kv hkv s
          obtain ⟨k, w⟩ := kv
          unfold NewsResponse.setField
          split_ifs with h1 h2 h3
          · simp [decodeString_of_mem members "status" status hstatus k w hkv h1]
          · have : w = .num lit := mem_theMember members "totalResults" _ htotal k w hkv h2
            subst this
            simp [decodeInt, hint]
          · have : w = .arr elems := mem_theMember members "articles" _ harticles k w hkv h3
            subst this
            simp [decodeSlice_isSome_of_envelope L elems articles harts]
          · rfl
        obtain ⟨e, he⟩ := Option.isSome_iff_exists.mp
          (decodeMembers_isSome (NewsResponse.setField L) members hok {})
        have p1 := decodeMembers_proj (NewsResponse.setField L) "status" NewsResponse.Status
          decodeString (NewsResponse_status_in L) (NewsResponse_status_out L) members {} e he
        have p2 := decodeMembers_proj (NewsResponse.setField L) "totalResults"
          NewsResponse.TotalResults decodeInt
          (NewsResponse_totalResults_in L) (NewsResponse_totalResults_out L) members {} e he
        have p3 := decodeMembers_proj (NewsResponse.setField L) "articles"
          (fun nr => (nr.Articles, nr.ArticlesSpare))
          (decodeSlice (decodeStruct (Article.setField L)) (Article.zero L))
          (NewsResponse_articles_in L) (NewsResponse_articles_out L) members {} e he
        rw [stringMember_eq members _ _ hstatus] at p1
        rw [theMember_eq members _ _ htotal] at p2
        rw [theMember_eq members _ _ harticles] at p3
        have q1 := decodeVals_single _ _ _ status _ p1 rfl
        have q2 := decodeVals_single _ _ _ total _ p2 (by simp [decodeInt, hint])
        have q3 := decodeVals_single _ _ _ (articles, []) _ p3
          (decodeSlice_of_envelope L elems articles harts)
        simp only [Unmarshal, decodeStruct, he]
        subst h
        cases e
        simp_all
      · exact absurd h (by simp)
    · exact absurd h (by simp)
  | _ => simp [envelopeNews] at h

/-- The status a news response decodes to is the body's single string member
`status`. -/
theorem News_status_of_member (L : TimeLib) (members : List (GoString × JValue))
    (nr : NewsResponse L.Time) (st : GoString)
    (h : Unmarshal (NewsResponse.setField L) (some (.obj members)) {} = some nr)
    (hs : stringMember members "status" = some st) : nr.Status = st := by
  simp only [Unmarshal, decodeStruct] at h
  have p := decodeMembers_proj (NewsResponse.setField L) "status" NewsResponse.Status
    decodeString (NewsResponse_status_in L) (NewsResponse_status_out L) members {} nr h
  rw [stringMember_eq members _ _ hs] at p
  exact decodeVals_single _ _ _ st _ p rfl

/-- The status a sources response decodes to is the body's single string
member `status`. -/
theorem Sources_status_of_member (members : List (GoString × JValue))
    (sr : SourcesResponse) (st : GoString)
    (h : Unmarshal SourcesResponse.setField (some (.obj members)) {} = some sr)
    (hs : stringMember members "status" = some st) : sr.Status = st := by
  simp only [Unmarshal, decodeStruct] at h
  have p := decodeMembers_proj SourcesResponse.setField "status" SourcesResponse.Status
    decodeString SourcesResponse_status_in SourcesResponse_status_out members {} sr h
  rw [stringMember_eq members _ _ hs] at p
  exact decodeVals_single _ _ _ st _ p rfl


theorem lastString_eq (members : List (GoString × JValue)) (name : String) (x : GoString)
    (h : lastString members name = some x) :
    (membersNamed members name).getLast? = some (.str x) := by
  unfold lastString lastMember at h
  split at h
  · rename_i s hs
    simp only [Option.some.injEq] at h
    subst h
    exact hs
  · exact absurd h (by simp)

theorem decodeVals_string_last (vs : List JValue) :
    ∀ (cur y x : GoString), decodeVals decodeString vs cur = some y →
      vs.getLast? = some (.str x) → y = x := by
  induction vs with
  | nil => intro cur y x _ hl; simp at hl
  | cons v rest ih =>
    intro cur y x h hl
    rw [decodeVals] at h
    cases hv : decodeString v cur with
    | none => rw [hv] at h; exact absurd h (by simp)
    | some z =>
      rw [hv] at h
      cases rest with
      | nil =>
        simp only [List.getLast?_singleton, Option.some.injEq] at hl
        subst hl
        simp only [decodeString, Option.some.injEq] at hv
        simp only [decodeVals, Option.some.injEq] at h
        rw [← h, ← hv]
      | cons w rest2 =>
        have hl2 : (w :: rest2).getLast? = some (.str x) := by
          rw [List.getLast?_cons_cons] at hl; exact hl
        exact ih z y x h hl2

/-- The status a news response decodes to is the string of the last `status`
member of the body. -/
theorem News_status_of_last (L : TimeLib) (members : List (GoString × JValue))
    (nr : NewsResponse L.Time) (st : GoString)
    (h : Unmarshal (NewsResponse.setField L) (some (.obj members)) {} = some nr)
    (hs : lastString members "status" = some st) : nr.Status = st := by
  simp only [Unmarshal, decodeStruct] at h
  have p := decodeMembers_proj (NewsResponse.setField L) "status" NewsResponse.Status
    decodeString (NewsResponse_status_in L) (NewsResponse_status_out L) members {} nr h
  exact decodeVals_string_last _ _ _ _ p (lastString_eq _ _ _ hs)

/-- The status a sources response decodes to is the string of the last
`status` member of the body. -/
theorem Sources_status_of_last (members : List (GoString × JValue))
    (sr : SourcesResponse) (st : GoString)
    (h : Unmarshal SourcesResponse.setField (some (.obj members)) {} = some sr)
    (hs : lastString members "status" = some st) : sr.Status = st := by
  simp only [Unmarshal, decodeStruct] at h
  have p := decodeMembers_proj SourcesResponse.setField "status" SourcesResponse.Status
    decodeString SourcesResponse_status_in SourcesResponse_status_out members {} sr h
  exact decodeVals_string_last _ _ _ _ p (lastString_eq _ _ _ hs)

/-- The fields of a decoded `Error` are the strings of the last `status`,
`code` and `message` members of the body. -/
theorem Error_fields_of_last (members : List (GoString × JValue)) (e : Error)
    (h : Unmarshal Error.setField (some (.obj members)) {} = some e) :
    (∀ x, lastString members "status" = some x → e.Status = x)
    ∧ (∀ x, lastString members "code" = some x → e.Code = x)
    ∧ (∀ x, lastString members "message" = some x → e.Message = x) := by
  simp only [Unmarshal, decodeStruct] at h
  refine ⟨?_, ?_, ?_⟩
  · intro x hx
    exact decodeVals_string_last _ _ _ _
      (decodeMembers_proj Error.setField "status" Error.Status decodeString
        Error_status_in Error_status_out members {} e h) (lastString_eq _ _ _ hx)
  · intro x hx
    exact decodeVals_string_last _ _ _ _
      (decodeMembers_proj Error.setField "code" Error.Code decodeString
        Error_code_in Error_code_out members {} e h) (lastString_eq _ _ _ hx)
  · intro x hx
    exact decodeVals_string_last _ _ _ _
      (decodeMembers_proj Error.setField "message" Error.Message decodeString
        Error_message_in Error_message_out members {} e h) (lastString_eq _ _ _ hx)

/-! ## Lemmas on the decoding half of the operations -/

theorem respondNews_body (L : TimeLib) (body : Option JValue) (nr : NewsResponse L.Time)
    (h : Unmarshal (NewsResponse.setField L) body {} = some nr) :
    respondNews L (.body body)
      = if nr.Status = str "error" then
          .ret none (some (match Unmarshal Error.setField body {} with
            | some e => .api e
            | none => .wrap .json (str "unmarshal to error")))
        else .ret (some nr) none := by
  simp only [respondNews, h]
  split_ifs
  · cases Unmarshal Error.setField body {} <;> rfl
  · rfl

theorem respondSources_body (nrv : Option SourcesResponse) (body : Option JValue)
    (sr : SourcesResponse) (h : Unmarshal SourcesResponse.setField body {} = some sr) :
    respondSources nrv (.body body)
      = if sr.Status = str "error" then
          .ret none (some (match Unmarshal Error.setField body {} with
            | some e => .api e
            | none => .wrap .json (str "unmarshal to error")))
        else .ret nrv none := by
  simp only [respondSources, h]
  split_ifs
  · cases Unmarshal Error.setField body {} <;> rfl
  · rfl

theorem respondNews_kinds (L : TimeLib) (rt : RoundTrip) :
    StageKinds (respondNews L rt) rt
      (fun body => (Unmarshal (NewsResponse.setField L) body {}).map fun nr => nr.Status) := by
  refine ⟨?_, ?_, ?_, ?_, ?_⟩
  · intro e h; subst h; rfl
  · intro e h; subst h; rfl
  · intro body h hs
    subst h
    cases hu : Unmarshal (NewsResponse.setField L) body {} with
    | none =>
      exact ⟨str "unmrashal to news response", by simp only [respondNews, hu]⟩
    | some nr => simp [hu] at hs
  · intro body h hs he
    subst h
    cases hu : Unmarshal (NewsResponse.setField L) body {} with
    | none => simp [hu] at hs
    | some nr =>
      simp only [hu, Option.map_some', Option.some.injEq] at hs
      exact ⟨str "unmarshal to error", by simp only [respondNews, hu, hs, if_true, he]⟩
  · intro v e h
    cases rt with
    | doError x => simp [respondNews] at h
    | readError x => simp [respondNews] at h
    | body body =>
      cases hu : Unmarshal (NewsResponse.setField L) body {} with
      | none => simp [respondNews, hu] at h
      | some nr =>
        by_cases hs : nr.Status = str "error"
        · cases he : Unmarshal Error.setField body {} with
          | none => simp [respondNews, hu, hs, he] at h
          | some err =>
            simp only [respondNews, hu, hs, if_true, he, Outcome.ret.injEq, Option.some.injEq,
              GoError.api.injEq] at h
            cases body with
            | none => simp [Unmarshal] at hu
            | some doc =>
              refine ⟨h.1.symm, doc, rfl, ?_, ?_⟩
              · simp [hu, hs]
              · rw [he, h.2]
        · simp [respondNews, hu, hs] at h

theorem respondSources_kinds (nrv : Option SourcesResponse) (rt : RoundTrip) :
    StageKinds (respondSources nrv rt) rt
      (fun body => (Unmarshal SourcesResponse.setField body {}).map fun sr => sr.Status) := by
  refine ⟨?_, ?_, ?_, ?_, ?_⟩
  · intro e h; subst h; rfl
  · intro e h; subst h; rfl
  · intro body h hs
    subst h
    cases hu : Unmarshal SourcesResponse.setField body {} with
    | none =>
      exact ⟨str "unmrashal to sources response", by simp only [respondSources, hu]⟩
    | some nr => simp [hu] at hs
  · intro body h hs he
    subst h
    cases hu : Unmarshal SourcesResponse.setField body {} with
    | none => simp [hu] at hs
    | some nr =>
      simp only [hu, Option.map_some', Option.some.injEq] at hs
      exact ⟨str "unmarshal to error", by simp only [respondSources, hu, hs, if_true, he]⟩
  · intro v e h
    cases rt with
    | doError x => simp [respondSources] at h
    | readError x => simp [respondSources] at h
    | body body =>
      cases hu : Unmarshal SourcesResponse.setField body {} with
      | none => simp [respondSources, hu] at h
      | some nr =>
        by_cases hs : nr.Status = str "error"
        · cases he : Unmarshal Error.setField body {} with
          | none => simp [respondSources, hu, hs, he] at h
          | some err =>
            simp only [respondSources, hu, hs, if_true, he, Outcome.ret.injEq, Option.some.injEq,
              GoError.api.injEq] at h
            cases body with
            | none => simp [Unmarshal] at hu
            | some doc =>
              refine ⟨h.1.symm, doc, rfl, ?_, ?_⟩
              · simp [hu, hs]
              · rw [he, h.2]
        · simp [respondSources, hu, hs] at h

theorem respondNews_returns (L : TimeLib) (rt : RoundTrip) :
    ∃ v e, respondNews L rt = .ret v e ∧ (v.isSome = true ↔ e = none)
      ∧ (e = none → ∃ doc nr, rt = .body (some doc)
          ∧ Unmarshal (NewsResponse.setField L) (some doc) {} = some nr
          ∧ nr.Status ≠ str "error" ∧ v = some nr) := by
  cases rt with
  | doError x => exact ⟨_, _, rfl, by simp, by simp⟩
  | readError x => exact ⟨_, _, rfl, by simp, by simp⟩
  | body body =>
    cases hu : Unmarshal (NewsResponse.setField L) body {} with
    | none =>
      refine ⟨none, some (.wrap .json (str "unmrashal to news response")), ?_, by simp, by simp⟩
      simp only [respondNews, hu]
    | some nr =>
      by_cases hs : nr.Status = str "error"
      · cases he : Unmarshal Error.setField body {} with
        | none =>
          refine ⟨none, some (.wrap .json (str "unmarshal to error")), ?_, by simp, by simp⟩
          simp only [respondNews, hu, hs, if_true, he]
        | some err =>
          refine ⟨none, some (.api err), ?_, by simp, by simp⟩
          simp only [respondNews, hu, hs, if_true, he]
      · cases body with
        | none => simp [Unmarshal] at hu
        | some doc =>
          refine ⟨some nr, none, ?_, by simp, fun _ => ⟨doc, nr, rfl, hu, hs, rfl⟩⟩
          simp only [respondNews, hu, hs, if_false]

theorem respondSources_returns (nrv : Option SourcesResponse) (rt : RoundTrip) :
    ∃ v e, respondSources nrv rt = .ret v e ∧ (e ≠ none → v = none)
      ∧ (e = none → v = nrv ∧ ∃ doc sr, rt = .body (some doc)
          ∧ Unmarshal SourcesResponse.setField (some doc) {} = some sr
          ∧ sr.Status ≠ str "error") := by
  cases rt with
  | doError x => exact ⟨_, _, rfl, by simp, by simp⟩
  | readError x => exact ⟨_, _, rfl, by simp, by simp⟩
  | body body =>
    cases hu : Unmarshal SourcesResponse.setField body {} with
    | none =>
      refine ⟨none, some (.wrap .json (str "unmrashal to sources response")), ?_,
        by simp, by simp⟩
      simp only [respondSources, hu]
    | some sr =>
      by_cases hs : sr.Status = str "error"
      · cases he : Unmarshal Error.setField body {} with
        | none =>
          refine ⟨none, some (.wrap .json (str "unmarshal to error")), ?_, by simp, by simp⟩
          simp only [respondSources, hu, hs, if_true, he]
        | some err =>
          refine ⟨none, some (.api err), ?_, by simp, by simp⟩
          simp only [respondSources, hu, hs, if_true, he]
      · cases body with
        | none => simp [Unmarshal] at hu
        | some doc =>
          refine ⟨nrv, none, ?_, by simp, fun _ => ⟨rfl, doc, sr, rfl, hu, hs⟩⟩
          simp only [respondSources, hu, hs, if_false]

theorem ampJoined_eq_intercalate (args : List GoString) :
    ampJoined args = (str "&").intercalate args := by
  induction args with
  | nil => rfl
  | cons a rest ih =>
    cases rest with
    | nil => simp [ampJoined, List.intercalate]
    | cons b rest =>
      rw [ampJoined, ih]
      simp [List.intercalate, List.intersperse]

/-! ## Properties of the query builder and of the operations -/

/-- C1 (as amended): for every body that is a JSON object whose `status` member
is the string `error` and that decodes into the error shape, each of
`GetTopHeadlines`, `GetEverything` and `GetSources`, when the body also
decodes into the target shape of that operation, returns no success value and
the API `Error` value decoded from the body, whose `Code` and `Message` are
exactly the string members `code` and `message` of the body (of a repeated
member the last one counts). -/
theorem error_body_gives_api_error (apiKey : Client → GoString) (L : TimeLib) (cli : Client)
    (net : Request → RoundTrip) (args : List GoString) (nrv : Option SourcesResponse)
    (members : List (GoString × JValue)) (e : Error)
    (hs : lastString members "status" = some (str "error"))
    (herror : Unmarshal Error.setField (some (.obj members)) {} = some e) :
    ((Unmarshal (NewsResponse.setField L) (some (.obj members)) {}).isSome = true →
      net (issued "top-headlines" (apiKey cli) args) = .body (some (.obj members)) →
      GetTopHeadlines apiKey L cli net args = .ret none (some (.api e)))
    ∧ ((Unmarshal (NewsResponse.setField L) (some (.obj members)) {}).isSome = true →
      net (issued "everything" (apiKey cli) args) = .body (some (.obj members)) →
      GetEverything apiKey L cli net args = .ret none (some (.api e)))
    ∧ ((Unmarshal SourcesResponse.setField (some (.obj members)) {}).isSome = true →
      net (issued "sources" (apiKey cli) args) = .body (some (.obj members)) →
      GetSources apiKey nrv cli net args = .ret none (some (.api e)))
    ∧ e.Status = str "error"
    ∧ (∀ c, lastString members "code" = some c → e.Code = c)
    ∧ (∀ m, lastString members "message" = some m → e.Message = m) := by
  obtain ⟨f1, f2, f3⟩ := Error_fields_of_last members e herror
  refine ⟨?_, ?_, ?_, f1 _ hs, f2, f3⟩
  · intro hnews h1
    obtain ⟨nr, hnr⟩ := Option.isSome_iff_exists.mp hnews
    have e1 := News_status_of_last L members nr _ hnr hs
    rw [GetTopHeadlines_eq apiKey, h1, respondNews_body L _ nr hnr, if_pos e1, herror]
  · intro hnews h2
    obtain ⟨nr, hnr⟩ := Option.isSome_iff_exists.mp hnews
    have e1 := News_status_of_last L members nr _ hnr hs
    rw [GetEverything_eq apiKey, h2, respondNews_body L _ nr hnr, if_pos e1, herror]
  · intro hsources h3
    obtain ⟨sr, hsr⟩ := Option.isSome_iff_exists.mp hsources
    have e2 := Sources_status_of_last members sr _ hsr hs
    rw [GetSources_eq apiKey, h3, respondSources_body nrv _ sr hsr, if_pos e2, herror]

set_option maxRecDepth 1000000 in
/-- C1, witness: the body `errorResponse` of the test on all three operations,
and the same body with the further member `"articles": "none"` on
`GetSources`, whose target shape it decodes into. -/
theorem error_body_gives_api_error_witness :
    GetTopHeadlines (fun _ => testAPIKey) rfc3339 (New testAPIKey) (serve errorResponse)
        [str "country=ca"] = .ret none (some (.api apiKeyMissing))
    ∧ GetEverything (fun _ => testAPIKey) rfc3339 (New testAPIKey) (serve errorResponse)
        [str "country=ca"] = .ret none (some (.api apiKeyMissing))
    ∧ GetSources (fun _ => testAPIKey) none (New testAPIKey) (serve errorResponse)
        [str "country=ca"] = .ret none (some (.api apiKeyMissing))
    ∧ GetSources (fun _ => testAPIKey) none (New testAPIKey) (serve errorWithArticlesText)
        [str "country=ca"] = .ret none (some (.api apiKeyMissing))
    ∧ apiKeyMissing.Code = str "apiKeyMissing"
    ∧ apiKeyMissing.Message = apiKeyMissingMessage :=
  have h := error_body_gives_api_error (fun _ => testAPIKey) rfc3339 (New testAPIKey)
    (serve errorResponse) [str "country=ca"] none errorMembers apiKeyMissing
    (by decide) (by decide)
  have g := error_body_gives_api_error (fun _ => testAPIKey) rfc3339 (New testAPIKey)
    (serve errorWithArticlesText) [str "country=ca"] none
    (errorMembers ++ [(str "articles", JValue.str (str "none"))]) apiKeyMissing
    (by decide) (by decide)
  ⟨h.1 (by decide) rfl, h.2.1 (by decide) rfl, h.2.2.1 (by decide) rfl,
   g.2.2.1 (by decide) rfl, h.2.2.2.2.1 _ (by decide), h.2.2.2.2.2 _ (by decide)⟩

set_option maxRecDepth 1000000 in
/-- C1, counterexample: the body `errorResponse` with the further member
`"articles": "none"` has status `error`, code `apiKeyMissing` and the
message of the test, and decodes into the error shape, yet `GetTopHeadlines`
returns a wrapped decode error and not the API `Error` value; and the body
with status `error` whose message is the number `404` does not decode into
the error shape, and `GetTopHeadlines` returns a wrapped decode error. -/
theorem error_body_with_other_member_not_api_error :
    errorWithArticlesText = .obj (errorMembers ++ [(str "articles", .str (str "none"))])
    ∧ lastString (errorMembers ++ [(str "articles", .str (str "none"))]) "status"
        = some (str "error")
    ∧ Unmarshal Error.setField (some errorWithArticlesText) {} = some apiKeyMissing
    ∧ GetTopHeadlines (fun _ => testAPIKey) rfc3339 (New testAPIKey)
        (serve errorWithArticlesText) [str "country=ca"]
        = .ret none (some (.wrap .json (str "unmrashal to news response")))
    ∧ GetTopHeadlines (fun _ => testAPIKey) rfc3339 (New testAPIKey)
        (serve errorWithArticlesText) [str "country=ca"]
        ≠ .ret none (some (.api apiKeyMissing))
    ∧ Unmarshal (NewsResponse.setField rfc3339) (some errorWithNumericMessage) {}
        = some { Status := str "error" }
    ∧ GetTopHeadlines (fun _ => testAPIKey) rfc3339 (New testAPIKey)
        (serve errorWithNumericMessage) [str "country=ca"]
        = .ret none (some (.wrap .json (str "unmarshal to error"))) := by
  refine ⟨rfl, by decide, by decide, by decide, by decide, by decide, by decide⟩

/-- C2: for every body the news envelope reads as a success response
(status not `error`, an integer `totalResults`, and a list of article objects
with timestamps the time library reads), `GetTopHeadlines` and
`GetEverything` return no error and the response whose `Status` and
`TotalResults` are the body's and whose `Articles` are, one for one and in
the order of the body's array, the articles its objects denote. -/
theorem success_body_gives_response (apiKey : Client → GoString) (L : TimeLib) (cli : Client)
    (net : Request → RoundTrip)
    (args : List GoString) (doc : JValue) (r : NewsResponse L.Time)
    (henv : envelopeNews L doc = some r)
    (hstatus : r.Status ≠ str "error")
    (h1 : net (issued "top-headlines" (apiKey cli) args) = .body (some doc))
    (h2 : net (issued "everything" (apiKey cli) args) = .body (some doc)) :
    GetTopHeadlines apiKey L cli net args = .ret (some r) none
    ∧ GetEverything apiKey L cli net args = .ret (some r) none
    ∧ ∃ members lit elems, doc = .obj members
        ∧ stringMember members "status" = some r.Status
        ∧ theMember members "totalResults" = some (.num lit)
        ∧ parseInt lit = some r.TotalResults
        ∧ theMember members "articles" = some (.arr elems)
        ∧ List.Forall₂ (fun x a => envelopeArticle L x = some a) elems r.Articles := by
  have hu := Unmarshal_News_of_envelope L doc r henv
  refine ⟨?_, ?_, ?_⟩
  · rw [GetTopHeadlines_eq apiKey, h1, respondNews_body L _ r hu, if_neg hstatus]
  · rw [GetEverything_eq apiKey, h2, respondNews_body L _ r hu, if_neg hstatus]
  · cases doc with
    | obj members =>
      simp only [envelopeNews] at henv
      split at henv
      · rename_i status lit elems hst htot harts
        split at henv
        · rename_i total articles hint hal
          simp only [Option.some.injEq] at henv
          subst henv
          refine ⟨members, lit, elems, rfl, hst, htot, hint, harts, ?_⟩
          clear hu hstatus htot harts h1 h2
          induction elems generalizing articles with
          | nil =>
            simp only [envelopeArticles, Option.some.injEq] at hal
            subst hal
            exact List.Forall₂.nil
          | cons x xs ih =>
            simp only [envelopeArticles] at hal
            split at hal
            · rename_i a as ha has
              simp only [Option.some.injEq] at hal
              subst hal
              exact List.Forall₂.cons ha (ih as has)
            · exact absurd hal (by simp)
        · exact absurd henv (by simp)
      · exact absurd henv (by simp)
    | _ => simp [envelopeNews] at henv

set_option maxRecDepth 1000000 in
/-- C2, witness: the body `topHeadlinesOKResponse` of the test and the result
the test expects. -/
theorem success_body_gives_response_witness :
    GetTopHeadlines (fun _ => testAPIKey) rfc3339 (New testAPIKey) (serve topHeadlinesOKResponse) [str "country=ca"]
      = .ret (some topHeadlinesOKResult) none
    ∧ GetEverything (fun _ => testAPIKey) rfc3339 (New testAPIKey) (serve topHeadlinesOKResponse) [str "country=ca"]
      = .ret (some topHeadlinesOKResult) none :=
  have h := success_body_gives_response (fun _ => testAPIKey) rfc3339 (New testAPIKey) (serve topHeadlinesOKResponse)
    [str "country=ca"] topHeadlinesOKResponse topHeadlinesOKResult
    (by decide) (by decide) rfl rfl
  ⟨h.1, h.2.1⟩

/-- C3 (as amended): for every body that parses into the target shape of the
operation, each of the three operations returns an error and no success value
if and only if the decoded status is exactly `error`; that error is the API
`Error` value when the body also parses into the error shape and a wrapped
decode error otherwise. For every other status `GetTopHeadlines` and
`GetEverything` return the decoded shape with a nil error, and `GetSources`
returns a nil error. -/
theorem status_error_decides_failure (apiKey : Client → GoString) (L : TimeLib) (cli : Client)
    (net : Request → RoundTrip) (args : List GoString) (nrv : Option SourcesResponse)
    (body : Option JValue) :
    (∀ nr, Unmarshal (NewsResponse.setField L) body {} = some nr →
      net (issued "top-headlines" (apiKey cli) args) = .body body →
      GetTopHeadlines apiKey L cli net args
        = (if nr.Status = str "error" then
            .ret none (some (match Unmarshal Error.setField body {} with
              | some e => .api e
              | none => .wrap .json (str "unmarshal to error")))
          else .ret (some nr) none))
    ∧ (∀ nr, Unmarshal (NewsResponse.setField L) body {} = some nr →
      net (issued "everything" (apiKey cli) args) = .body body →
      GetEverything apiKey L cli net args
        = (if nr.Status = str "error" then
            .ret none (some (match Unmarshal Error.setField body {} with
              | some e => .api e
              | none => .wrap .json (str "unmarshal to error")))
          else .ret (some nr) none))
    ∧ (∀ sr, Unmarshal SourcesResponse.setField body {} = some sr →
      net (issued "sources" (apiKey cli) args) = .body body →
      ∃ v, GetSources apiKey nrv cli net args
        = (if sr.Status = str "error" then
            .ret none (some (match Unmarshal Error.setField body {} with
              | some e => .api e
              | none => .wrap .json (str "unmarshal to error")))
          else .ret v none)) := by
  refine ⟨?_, ?_, ?_⟩
  · intro nr hnews h1
    rw [GetTopHeadlines_eq apiKey, h1, respondNews_body L _ nr hnews]
  · intro nr hnews h2
    rw [GetEverything_eq apiKey, h2, respondNews_body L _ nr hnews]
  · intro sr hsources h3
    refine ⟨nrv, ?_⟩
    rw [GetSources_eq apiKey, h3, respondSources_body nrv _ sr hsources]

set_option maxRecDepth 1000000 in
/-- C3, witness: the two bodies of the test; a body whose status is `Error`
with a capital letter, which is returned as a success; and the body
`{"status": "ok", "sources": "x"}`, which parses into the news shape only,
on `GetTopHeadlines`. -/
theorem status_error_decides_failure_witness :
    (GetTopHeadlines (fun _ => testAPIKey) rfc3339 (New testAPIKey) (serve errorResponse)
        [str "country=ca"] = .ret none (some (.api apiKeyMissing)))
    ∧ (GetTopHeadlines (fun _ => testAPIKey) rfc3339 (New testAPIKey)
        (serve topHeadlinesOKResponse) [str "country=ca"]
        = .ret (some topHeadlinesOKResult) none)
    ∧ (GetEverything (fun _ => testAPIKey) rfc3339 (New testAPIKey)
        (serve (.obj [(str "status", .str (str "Error"))])) []
        = .ret (some { Status := str "Error" }) none)
    ∧ (GetTopHeadlines (fun _ => testAPIKey) rfc3339 (New testAPIKey)
        (serve okWithSourcesText) [str "country=ca"]
        = .ret (some { Status := str "ok" }) none)
    ∧ Unmarshal SourcesResponse.setField (some okWithSourcesText) {} = none :=
  ⟨((status_error_decides_failure (fun _ => testAPIKey) rfc3339 (New testAPIKey)
      (serve errorResponse) [str "country=ca"] none (some errorResponse)).1
      { Status := str "error" } (by decide) rfl).trans (by decide),
   ((status_error_decides_failure (fun _ => testAPIKey) rfc3339 (New testAPIKey)
      (serve topHeadlinesOKResponse) [str "country=ca"] none (some topHeadlinesOKResponse)).1
      topHeadlinesOKResult (by decide) rfl).trans (by decide),
   ((status_error_decides_failure (fun _ => testAPIKey) rfc3339 (New testAPIKey)
      (serve (.obj [(str "status", .str (str "Error"))])) [] none
      (some (.obj [(str "status", .str (str "Error"))]))).2.1
      { Status := str "Error" } (by decide) rfl).trans (by decide),
   ((status_error_decides_failure (fun _ => testAPIKey) rfc3339 (New testAPIKey)
      (serve okWithSourcesText) [str "country=ca"] none (some okWithSourcesText)).1
      { Status := str "ok" } (by decide) rfl).trans (by decide),
   by decide⟩

set_option maxRecDepth 1000000 in
/-- C3, counterexample: the body `{"status": "error", "code": 5}` parses into
the news shape and into the sources shape with decoded status `error`, yet
the error `GetTopHeadlines` and `GetSources` return is a wrapped decode error
and not an API `Error` value. -/
theorem status_error_without_api_error :
    Unmarshal (NewsResponse.setField rfc3339) (some errorWithNumericCode) {}
        = some { Status := str "error" }
    ∧ Unmarshal SourcesResponse.setField (some errorWithNumericCode) {}
        = some { Status := str "error" }
    ∧ GetTopHeadlines (fun _ => testAPIKey) rfc3339 (New testAPIKey)
        (serve errorWithNumericCode) [str "country=ca"]
        = .ret none (some (.wrap .json (str "unmarshal to error")))
    ∧ GetSources (fun _ => testAPIKey) none (New testAPIKey) (serve errorWithNumericCode)
        [str "country=ca"]
        = .ret none (some (.wrap .json (str "unmarshal to error")))
    ∧ GoError.isAPI (.wrap .json (str "unmarshal to error")) = false := by
  refine ⟨by decide, by decide, by decide, by decide, rfl⟩

/-- C4: for every base and every ordered list of fragments, `buildURL` is the
base followed by the path-segment escaping of the fragments joined in order
with one `&` between consecutive fragments and none before or after; for
`["a=1","b=2"]` the joined string before escaping is `a=1&b=2`. -/
theorem buildURL_is_base_then_escaped_join (base : GoString) (args : List GoString) :
    buildURL base args = base ++ PathEscape (ampJoined args)
    ∧ joinParams args = ampJoined args
    ∧ ampJoined args = (str "&").intercalate args
    ∧ joinParams [str "a=1", str "b=2"] = str "a=1&b=2" := by
  refine ⟨?_, joinParams_eq args, ampJoined_eq_intercalate args, by decide⟩
  simp [buildURL, joinParams_eq]

/-- C5: with zero fragments `buildURL` returns exactly the base, the escaped
suffix being empty, so each operation called with no parameters requests its
bare endpoint base, which ends in `?`. -/
theorem buildURL_no_fragments (base : GoString) (apiKey : Client → GoString) (L : TimeLib)
    (cli : Client)
    (net : Request → RoundTrip) (nr : Option SourcesResponse) :
    buildURL base [] = base
    ∧ PathEscape (joinParams []) = []
    ∧ buildURL (endpointBase "top-headlines") [] = str "https://newsapi.org/v2/top-headlines?"
    ∧ buildURL (endpointBase "everything") [] = str "https://newsapi.org/v2/everything?"
    ∧ buildURL (endpointBase "sources") [] = str "https://newsapi.org/v2/sources?"
    ∧ GetTopHeadlines apiKey L cli net []
        = respondNews L (net { Method := str "GET",
                               URL := { Scheme := str "https", Host := str "newsapi.org",
                                        Path := str "/v2/top-headlines", ForceQuery := true,
                                        RawQuery := [] },
                               Header := [(str "Authorization", apiKey cli)] })
    ∧ GetEverything apiKey L cli net []
        = respondNews L (net { Method := str "GET",
                               URL := { Scheme := str "https", Host := str "newsapi.org",
                                        Path := str "/v2/everything", ForceQuery := true,
                                        RawQuery := [] },
                               Header := [(str "Authorization", apiKey cli)] })
    ∧ GetSources apiKey nr cli net []
        = respondSources nr (net { Method := str "GET",
                                   URL := { Scheme := str "https", Host := str "newsapi.org",
                                            Path := str "/v2/sources", ForceQuery := true,
                                            RawQuery := [] },
                                   Header := [(str "Authorization", apiKey cli)] }) := by
  have hb : ∀ b : GoString, buildURL b [] = b := by
    intro b; simp [buildURL, joinParams, joinLoop, PathEscape, escape]
  have hi : ∀ (e : String) (k : GoString), issued e k []
      = { Method := str "GET",
          URL := { Scheme := str "https", Host := str "newsapi.org",
                   Path := str "/v2/" ++ str e, ForceQuery := true, RawQuery := [] },
          Header := [(str "Authorization", k)] } := by
    intro e k; simp [issued, ampJoined, PathEscape, escape]
  refine ⟨hb base, by simp [joinParams, joinLoop, PathEscape, escape], ?_, ?_, ?_, ?_, ?_, ?_⟩
  · rw [hb]; decide
  · rw [hb]; decide
  · rw [hb]; decide
  · rw [GetTopHeadlines_eq apiKey, hi]; rfl
  · rw [GetEverything_eq apiKey, hi]; rfl
  · rw [GetSources_eq apiKey, hi]; rfl

set_option maxRecDepth 1000000 in
/-- C6: `Error.Error()` writes `code: `, the code, ` message: ` and then what
the selector `Nessage` denotes; the result is the string of the claim exactly
when that is the `Message` field, which the source does not select: with the
selector denoting anything else (here the empty string) the text of
`errorResponse` the test expects is not produced. -/
theorem Error_Error_reads_Nessage (Nessage : Error → GoString) (e : Error) :
    Error.Error Nessage e = str "code: " ++ e.Code ++ str " message: " ++ Nessage e
    ∧ (Error.Error Nessage e = str "code: " ++ e.Code ++ str " message: " ++ e.Message
        ↔ Nessage e = e.Message)
    ∧ Error.Error (fun _ => []) apiKeyMissing = str "code: apiKeyMissing message: "
    ∧ Error.Error (fun _ => []) apiKeyMissing
        ≠ str "code: apiKeyMissing message: Your API key is missing. Append this to the URL with the apiKey param, or use the x-api-key HTTP header." := by
  refine ⟨rfl, ?_, by decide, by decide⟩
  unfold Error.Error
  exact List.append_right_inj _

set_option maxRecDepth 1000000 in
/-- C7: each operation hands the network the request with method `GET`, the
URL that `url.Parse` reads from `buildURL` of its endpoint base and the
fragments, and the single header `Authorization` whose value is what the
selector `cli.apiKey` denotes. The source declares no such field: `New`
returns the same client for every key, so whatever the selector denotes, the
header is the same for all keys and is not the key for every key. -/
theorem request_header_is_undeclared_selector (apiKey : Client → GoString) (L : TimeLib)
    (k k2 : GoString) (net : Request → RoundTrip) (args : List GoString)
    (nrv : Option SourcesResponse) :
    (GetTopHeadlines apiKey L (New k) net args
        = respondNews L (net (issued "top-headlines" (apiKey (New k)) args))
      ∧ GetEverything apiKey L (New k) net args
        = respondNews L (net (issued "everything" (apiKey (New k)) args))
      ∧ GetSources apiKey nrv (New k) net args
        = respondSources nrv (net (issued "sources" (apiKey (New k)) args)))
    ∧ ((issued "top-headlines" (apiKey (New k)) args).Method = str "GET"
      ∧ (issued "everything" (apiKey (New k)) args).Method = str "GET"
      ∧ (issued "sources" (apiKey (New k)) args).Method = str "GET")
    ∧ (urlParse (buildURL (str "https://newsapi.org/v2/top-headlines?") args)
          = some (issued "top-headlines" (apiKey (New k)) args).URL
      ∧ urlParse (buildURL (str "https://newsapi.org/v2/everything?") args)
          = some (issued "everything" (apiKey (New k)) args).URL
      ∧ urlParse (buildURL (str "https://newsapi.org/v2/sources?") args)
          = some (issued "sources" (apiKey (New k)) args).URL)
    ∧ (endpointBase "top-headlines" = str "https://newsapi.org/v2/top-headlines?"
      ∧ endpointBase "everything" = str "https://newsapi.org/v2/everything?"
      ∧ endpointBase "sources" = str "https://newsapi.org/v2/sources?")
    ∧ (issued "top-headlines" (apiKey (New k)) args).Header
        = [(str "Authorization", apiKey (New k))]
    ∧ New k = New k2
    ∧ GetTopHeadlines apiKey L (New k) net args = GetTopHeadlines apiKey L (New k2) net args
    ∧ ¬ (∀ key : GoString, (issued "top-headlines" (apiKey (New key)) args).Header
          = [(str "Authorization", key)])
    ∧ (issued "top-headlines" ((fun _ => ([] : GoString)) (New testAPIKey))
          [str "country=ca"]).Header
        ≠ [(str "Authorization", testAPIKey)] := by
  have hb1 : endpointBase "top-headlines" = str "https://newsapi.org/v2/top-headlines?" := by
    decide
  have hb2 : endpointBase "everything" = str "https://newsapi.org/v2/everything?" := by decide
  have hb3 : endpointBase "sources" = str "https://newsapi.org/v2/sources?" := by decide
  have hp : ∀ e, isEndpoint e →
      urlParse (buildURL (endpointBase e) args) = some (issued e (apiKey (New k)) args).URL := by
    intro e he
    rw [urlParse_endpoint e he args]
    rfl
  refine ⟨⟨GetTopHeadlines_eq apiKey L (New k) net args,
    GetEverything_eq apiKey L (New k) net args, GetSources_eq apiKey nrv (New k) net args⟩,
    ⟨rfl, rfl, rfl⟩, ⟨?_, ?_, ?_⟩, ⟨hb1, hb2, hb3⟩, rfl, rfl, rfl, ?_, by decide⟩
  · rw [← hb1]; exact hp _ (Or.inl rfl)
  · rw [← hb2]; exact hp _ (Or.inr (Or.inl rfl))
  · rw [← hb3]; exact hp _ (Or.inr (Or.inr rfl))
  · intro h
    have h1 := h []
    have h2 := h [0]
    have e : New ([] : GoString) = New [0] := rfl
    simp only [issued, e] at h1 h2
    rw [h2] at h1
    simp at h1

/-- C8: for each of the three operations the kind of the returned error names
the failing stage, and the kinds do not overlap: a failed transport gives a
wrapped transport error, a body that is not valid JSON or does not match the
shape gives a wrapped decode error, and an API `Error` value is returned only
when the body parsed with status `error`; no error is of two kinds. -/
theorem error_kind_names_stage (apiKey : Client → GoString) (L : TimeLib) (cli : Client)
    (net : Request → RoundTrip)
    (args : List GoString) (nrv : Option SourcesResponse) :
    StageKinds (GetTopHeadlines apiKey L cli net args) (net (issued "top-headlines" (apiKey cli) args))
      (fun body => (Unmarshal (NewsResponse.setField L) body {}).map fun nr => nr.Status)
    ∧ StageKinds (GetEverything apiKey L cli net args) (net (issued "everything" (apiKey cli) args))
      (fun body => (Unmarshal (NewsResponse.setField L) body {}).map fun nr => nr.Status)
    ∧ StageKinds (GetSources apiKey nrv cli net args) (net (issued "sources" (apiKey cli) args))
      (fun body => (Unmarshal SourcesResponse.setField body {}).map fun sr => sr.Status)
    ∧ (∀ c m, GoError.isTransport (.wrap (.transport c) m) = true
        ∧ GoError.isTransport (.wrap (.read c) m) = true
        ∧ GoError.isDecode (.wrap .json m) = true)
    ∧ (∀ e, GoError.isAPI (.api e) = true)
    ∧ (∀ err : GoError,
        (err.isTransport = true ∧ err.isDecode = false ∧ err.isAPI = false)
        ∨ (err.isTransport = false ∧ err.isDecode = true ∧ err.isAPI = false)
        ∨ (err.isTransport = false ∧ err.isDecode = false ∧ err.isAPI = true)) := by
  refine ⟨?_, ?_, ?_, fun c m => ⟨rfl, rfl, rfl⟩, fun e => rfl, ?_⟩
  · rw [GetTopHeadlines_eq apiKey]; exact respondNews_kinds L _
  · rw [GetEverything_eq apiKey]; exact respondNews_kinds L _
  · rw [GetSources_eq apiKey]; exact respondSources_kinds nrv _
  · intro err
    cases err with
    | wrap c m => cases c <;> simp [GoError.isTransport, GoError.isDecode, GoError.isAPI]
    | api e => simp [GoError.isTransport, GoError.isDecode, GoError.isAPI]

set_option maxRecDepth 1000000 in
/-- C8, examples: a refused connection, a body that is not JSON, and the
error body of the test, on `GetTopHeadlines`. -/
theorem error_kind_names_stage_witness :
    GetTopHeadlines (fun _ => testAPIKey) rfc3339 (New testAPIKey) (fun _ => .doError (str "connection refused"))
        [str "country=ca"]
      = .ret none (some (.wrap (.transport (str "connection refused")) (str "client get request")))
    ∧ (∃ m, GetTopHeadlines (fun _ => testAPIKey) rfc3339 (New testAPIKey) (fun _ => .body none) [str "country=ca"]
      = .ret none (some (.wrap .json m)))
    ∧ Unmarshal Error.setField (some errorResponse) {} = some apiKeyMissing :=
  ⟨(error_kind_names_stage (fun _ => testAPIKey) rfc3339 (New testAPIKey)
      (fun _ => .doError (str "connection refused")) [str "country=ca"] none).1.1 _ rfl,
   (error_kind_names_stage (fun _ => testAPIKey) rfc3339 (New testAPIKey)
      (fun _ => .body none) [str "country=ca"] none).1.2.2.1 none rfl rfl,
   let h := (error_kind_names_stage (fun _ => testAPIKey) rfc3339 (New testAPIKey) (serve errorResponse)
      [str "country=ca"] none).1.2.2.2.2 none apiKeyMissing (by decide)
   by
    obtain ⟨_, doc, hdoc, _, he⟩ := h
    have : doc = errorResponse := by
      simp only [serve, RoundTrip.body.injEq, Option.some.injEq] at hdoc
      exact hdoc.symm
    rw [← this]; exact he⟩

set_option maxRecDepth 1000000 in
/-- C9: request construction accepts the URL that `buildURL` makes from each
endpoint base, so no call reaches `log.Fatal`; `GetTopHeadlines` and
`GetEverything` return exactly one of a success value and an error, and a nil
error is returned only when the body was read, parsed into the target shape
and has a status other than `error`. `GetSources` returns with its nil error
the value of `nr`, which it does not declare, and not the `sr` it decoded:
on the body `sourcesOKResponse` the decoded sources are not what is
returned, and with `nr` nil the call returns neither a value nor an error. -/
theorem GetSources_returns_undeclared_nr (apiKey : Client → GoString) (L : TimeLib)
    (cli : Client) (net : Request → RoundTrip) (args : List GoString)
    (nrv : Option SourcesResponse) :
    ((NewRequest (str "GET") (buildURL (endpointBase "top-headlines") args)).isSome = true
      ∧ (NewRequest (str "GET") (buildURL (endpointBase "everything") args)).isSome = true
      ∧ (NewRequest (str "GET") (buildURL (endpointBase "sources") args)).isSome = true)
    ∧ (GetTopHeadlines apiKey L cli net args ≠ .fatal
      ∧ GetEverything apiKey L cli net args ≠ .fatal
      ∧ GetSources apiKey nrv cli net args ≠ .fatal)
    ∧ (∃ v e, GetTopHeadlines apiKey L cli net args = .ret v e ∧ (v.isSome = true ↔ e = none)
        ∧ (e = none → ∃ doc nr,
            net (issued "top-headlines" (apiKey cli) args) = .body (some doc)
            ∧ Unmarshal (NewsResponse.setField L) (some doc) {} = some nr
            ∧ nr.Status ≠ str "error" ∧ v = some nr))
    ∧ (∃ v e, GetEverything apiKey L cli net args = .ret v e ∧ (v.isSome = true ↔ e = none)
        ∧ (e = none → ∃ doc nr,
            net (issued "everything" (apiKey cli) args) = .body (some doc)
            ∧ Unmarshal (NewsResponse.setField L) (some doc) {} = some nr
            ∧ nr.Status ≠ str "error" ∧ v = some nr))
    ∧ (∃ v e, GetSources apiKey nrv cli net args = .ret v e ∧ (e ≠ none → v = none)
        ∧ (e = none → v = nrv ∧ ∃ doc sr,
            net (issued "sources" (apiKey cli) args) = .body (some doc)
            ∧ Unmarshal SourcesResponse.setField (some doc) {} = some sr
            ∧ sr.Status ≠ str "error"))
    ∧ Unmarshal SourcesResponse.setField (some sourcesOKResponse) {} = some sourcesOKResult
    ∧ GetSources apiKey nrv cli (serve sourcesOKResponse) [str "country=us"] = .ret nrv none
    ∧ GetSources apiKey none cli (serve sourcesOKResponse) [str "country=us"] = .ret none none
    ∧ GetSources apiKey none cli (serve sourcesOKResponse) [str "country=us"]
        ≠ .ret (some sourcesOKResult) none := by
  have r1 := respondNews_returns L (net (issued "top-headlines" (apiKey cli) args))
  have r2 := respondNews_returns L (net (issued "everything" (apiKey cli) args))
  have r3 := respondSources_returns nrv (net (issued "sources" (apiKey cli) args))
  rw [← GetTopHeadlines_eq apiKey] at r1
  rw [← GetEverything_eq apiKey] at r2
  rw [← GetSources_eq apiKey] at r3
  have hdec : Unmarshal SourcesResponse.setField (some sourcesOKResponse) {}
      = some sourcesOKResult := by decide
  have hne : sourcesOKResult.Status ≠ str "error" := by decide
  have hret : ∀ v : Option SourcesResponse,
      GetSources apiKey v cli (serve sourcesOKResponse) [str "country=us"] = .ret v none := by
    intro v
    rw [GetSources_eq apiKey]
    show respondSources v (.body (some sourcesOKResponse)) = _
    rw [respondSources_body v _ _ hdec, if_neg hne]
  refine ⟨⟨?_, ?_, ?_⟩, ⟨?_, ?_, ?_⟩, r1, r2, r3, hdec, hret nrv, hret none, ?_⟩
  · rw [NewRequest_endpoint _ (Or.inl rfl)]; rfl
  · rw [NewRequest_endpoint _ (Or.inr (Or.inl rfl))]; rfl
  · rw [NewRequest_endpoint _ (Or.inr (Or.inr rfl))]; rfl
  · obtain ⟨v, e, h, _⟩ := r1; rw [h]; exact fun h => Outcome.noConfusion h
  · obtain ⟨v, e, h, _⟩ := r2; rw [h]; exact fun h => Outcome.noConfusion h
  · obtain ⟨v, e, h, _⟩ := r3; rw [h]; exact fun h => Outcome.noConfusion h
  · rw [hret none]
    intro h
    simp at h

/-- C10: `buildURL` leaves the joined fragments unchanged exactly when every
byte of every fragment is in the path-segment safe set (ASCII letters, digits
and `- _ . ~ $ & + = : @`), so `=` and `&` survive (`country=ca`); every other
byte becomes its `%XX` form, `%` included, so `q=a%20b` is sent as
`q=a%2520b`. -/
theorem buildURL_unchanged_iff_safe (base : GoString) (args : List GoString) :
    (buildURL base args = base ++ ampJoined args
        ↔ ∀ a ∈ args, ∀ c ∈ a, segmentSafe c = true)
    ∧ segmentSafe (ch '=') = true ∧ segmentSafe (ch '&') = true
    ∧ buildURL base [str "country=ca"] = base ++ str "country=ca"
    ∧ (∀ c : Byte, segmentSafe c = false →
        PathEscape [c] = [ch '%', upperhex (c.val / 16), upperhex (c.val % 16)])
    ∧ PathEscape (str "%") = str "%25"
    ∧ buildURL base [str "q=a%20b"] = base ++ str "q=a%2520b" := by
  have hb : buildURL base args = base ++ PathEscape (ampJoined args) := by
    simp [buildURL, joinParams_eq]
  refine ⟨?_, by decide, by decide, ?_, ?_, by decide, ?_⟩
  · rw [hb, List.append_cancel_left_eq, escape_id_iff, ampJoined_safe_iff]
  · have : PathEscape (joinParams [str "country=ca"]) = str "country=ca" := by decide
    simp only [buildURL, this]
  · intro c hc
    have : shouldEscape c encodePathSegment = true := by
      rw [shouldEscape_segment, hc]; rfl
    simp [PathEscape, escape, this, pct]
  · have : PathEscape (joinParams [str "q=a%20b"]) = str "q=a%2520b" := by decide
    simp only [buildURL, this]

end NewsAPI
